import Mathlib

/-!
# Verification of the qiskit-mcp-server tool surface (`src/main.py`)

A shallow embedding of the orchestration shell in `src/main.py`.

Modelling conventions:
* Python's global dict `circuits` is modelled as an insertion-ordered
  association list `Registry`; Python dict update semantics (replace in
  place, else append) are mirrored by `regSet`.
* A qiskit `QuantumCircuit` is modelled as `Circuit`: qubit count,
  classical-bit count and the ordered list of applied instructions.
* Every tool is a pure function from the registry (plus its arguments and,
  where the source delegates to qiskit / numpy, an explicit delegate
  function argument) to the final registry state paired with
  `Except PyExn String`: `.ok s` is the string the tool returns, while
  `.error e` is an exception that escaped the tool (the tool had no
  handler for it).
* Python exceptions are the inductive `PyExn`.  Machine floats of the
  source are modelled as exact rationals `ℚ`.
* Library ("delegate") computations that the spec scopes out — simulation,
  statevector math, density-matrix math, transpiler passes, text drawing —
  are taken as function parameters of the embedded tools, so theorems
  about the orchestration shell quantify over them.
-/

/-- A Python exception value; `msg` is what `str(e)` renders. -/
inductive PyExn where
  /-- `IndexError`, e.g. from `qubits[0]` on an empty list. -/
  | indexError (msg : String)
  /-- qiskit's `CircuitError`, e.g. out-of-range qubit index. -/
  | circuitError (msg : String)
  /-- any other exception raised by a delegate call. -/
  | generalError (msg : String)
deriving DecidableEq, Repr

/-- `str(e)` for the modelled exception. -/
def PyExn.msg : PyExn → String
  | .indexError m => m
  | .circuitError m => m
  | .generalError m => m

/-- One instruction of a circuit (`circuit.data` entries), covering the
instructions the tools of `src/main.py` can create, plus a generic case
(e.g. an appended QFT gate). Rotation angles and Euler angles are exact
rationals modelling the source's floats. -/
inductive Op where
  | h (q : Nat)
  | x (q : Nat)
  | y (q : Nat)
  | z (q : Nat)
  | cx (c t : Nat)
  | measure (q cb : Nat)
  | barrier (qs : List Nat)
  | rot (name : String) (angle : ℚ) (qs : List Nat)
  | u (theta phi lam : ℚ) (q : Nat)
  | swap (a b : Nat)
  | s (q : Nat)
  | sdg (q : Nat)
  | t (q : Nat)
  | tdg (q : Nat)
  | generic (name : String) (qs : List Nat)
deriving DecidableEq, Repr

/-- The (lower-case) qiskit instruction name, as read by
`instruction.operation.name` in the source. -/
def Op.qiskitName : Op → String
  | .h _ => "h"
  | .x _ => "x"
  | .y _ => "y"
  | .z _ => "z"
  | .cx _ _ => "cx"
  | .measure _ _ => "measure"
  | .barrier _ => "barrier"
  | .rot n _ _ => n
  | .u _ _ _ _ => "u"
  | .swap _ _ => "swap"
  | .s _ => "s"
  | .sdg _ => "sdg"
  | .t _ => "t"
  | .tdg _ => "tdg"
  | .generic n _ => n

/-- The qubit indices an instruction acts on (`instruction.qubits`,
resolved to indices). -/
def Op.qubits : Op → List Nat
  | .h q => [q]
  | .x q => [q]
  | .y q => [q]
  | .z q => [q]
  | .cx a b => [a, b]
  | .measure q _ => [q]
  | .barrier qs => qs
  | .rot _ _ qs => qs
  | .u _ _ _ q => [q]
  | .swap a b => [a, b]
  | .s q => [q]
  | .sdg q => [q]
  | .t q => [q]
  | .tdg q => [q]
  | .generic _ qs => qs

/-- The classical-bit indices an instruction writes (`instruction.clbits`). -/
def Op.clbits : Op → List Nat
  | .measure _ cb => [cb]
  | _ => []

/-- Whether the instruction is a directive (barrier); qiskit's default
`size`/`depth` filters exclude directives. -/
def Op.isDirective : Op → Bool
  | .barrier _ => true
  | _ => false

/-- The parameter list of the instruction (`gate.params`). -/
def Op.params : Op → List ℚ
  | .rot _ a _ => [a]
  | .u a b c _ => [a, b, c]
  | _ => []

/-- A qiskit `QuantumCircuit`: qubit count, classical-bit count, and the
ordered instruction sequence. -/
structure Circuit where
  numQubits : Nat
  numClbits : Nat
  ops : List Op
deriving DecidableEq, Repr

/-- `circuit.size()`: number of instructions, excluding directives. -/
def Circuit.size (c : Circuit) : Nat :=
  (c.ops.filter (fun op => !op.isDirective)).length

/-- The `circuits` dict: an insertion-ordered map from name to circuit. -/
abbrev Registry := List (String × Circuit)

/-- Dictionary lookup (`circuits[name]` / `circuits.get(name)`). -/
def regFind? : Registry → String → Option Circuit
  | [], _ => none
  | (k, c) :: rest, n => if k = n then some c else regFind? rest n

/-- Membership test (`name in circuits`). -/
def regContains (reg : Registry) (n : String) : Bool :=
  (regFind? reg n).isSome

/-- Dictionary assignment `circuits[k] = v`: replace in place if present,
else append (Python dict insertion-order semantics). -/
def regSet : Registry → String → Circuit → Registry
  | [], k, v => [(k, v)]
  | (k', c) :: rest, k, v =>
    if k' = k then (k', v) :: rest else (k', c) :: regSet rest k v

/-- Python list indexing `l[i]` for a list of naturals: raises
`IndexError` when out of range. -/
def pyIdx (l : List Nat) (i : Nat) : Except PyExn Nat :=
  match l.get? i with
  | some v => .ok v
  | none => .error (.indexError "list index out of range")

/-- Append a single-qubit instruction, as qiskit's gate methods do;
raises `CircuitError` when the index is out of range. -/
def Circuit.apply1 (c : Circuit) (q : Nat) (op : Op) : Except PyExn Circuit :=
  if q < c.numQubits then .ok { c with ops := c.ops ++ [op] }
  else .error (.circuitError "index out of range")

/-- Append a two-qubit instruction; qiskit raises `CircuitError` on an
out-of-range index or duplicate qubit arguments. -/
def Circuit.apply2 (c : Circuit) (q1 q2 : Nat) (op : Op) : Except PyExn Circuit :=
  if q1 < c.numQubits ∧ q2 < c.numQubits ∧ q1 ≠ q2 then
    .ok { c with ops := c.ops ++ [op] }
  else .error (.circuitError "invalid qubit arguments")

/-- `circuit.measure(q, cb)`: validates both indices and appends. -/
def Circuit.applyMeasure (c : Circuit) (q cb : Nat) : Except PyExn Circuit :=
  if q < c.numQubits ∧ cb < c.numClbits then
    .ok { c with ops := c.ops ++ [.measure q cb] }
  else .error (.circuitError "invalid measure arguments")

/-- `circuit.measure_all()`: adds a fresh classical register of
`numQubits` bits, a full barrier, and a measurement of each qubit into
the fresh register. -/
def Circuit.measureAll (c : Circuit) : Circuit :=
  { c with
    numClbits := c.numClbits + c.numQubits,
    ops := c.ops ++ [.barrier (List.range c.numQubits)]
           ++ (List.range c.numQubits).map (fun i => .measure i (c.numClbits + i)) }

/-- One gate record of the tools' `gates` argument: a JSON object with a
`type`, a qubit index list, an optional classical-bit index and an
optional parameter list (`gate.get` defaults are baked into the field
defaults). -/
structure GateSpec where
  type : String := ""
  qubits : List Nat := []
  classical_bit : Option Nat := none
  params : List ℚ := []
deriving DecidableEq, Repr

/-- Result of processing one gate record inside the loop of `add_gates` /
`add_advanced_gates`. -/
inductive StepRes where
  | ok (c : Circuit) (desc : String)
  | unsupported (t : String)
  | exn (e : PyExn)
deriving Repr

/-- Python `str.lower()` (character-wise; the source's gate kinds are
ASCII).  Defined by structural recursion over the character data so that
it evaluates inside the kernel, unlike `String.toLower`. -/
def pyLower (s : String) : String := ⟨s.data.map Char.toLower⟩

/-- Python `str.upper()`, structurally (see `pyLower`). -/
def pyUpper (s : String) : String := ⟨s.data.map Char.toUpper⟩

/-- Python `str.startswith(p)`, structurally. -/
def pyStarts (s p : String) : Bool := decide (s.data.take p.data.length = p.data)

/-- The body of the `for gate in gates` loop of `add_gates`: dispatch on
the lower-cased `type` over the basic kinds. -/
def basicStep (c : Circuit) (g : GateSpec) : StepRes :=
  let t := pyLower g.type
  if t = "h" then
    match pyIdx g.qubits 0 with
    | .error e => .exn e
    | .ok q =>
      match c.apply1 q (.h q) with
      | .error e => .exn e
      | .ok c' => .ok c' ("H gate on qubit " ++ Nat.repr q)
  else if t = "x" then
    match pyIdx g.qubits 0 with
    | .error e => .exn e
    | .ok q =>
      match c.apply1 q (.x q) with
      | .error e => .exn e
      | .ok c' => .ok c' ("X gate on qubit " ++ Nat.repr q)
  else if t = "y" then
    match pyIdx g.qubits 0 with
    | .error e => .exn e
    | .ok q =>
      match c.apply1 q (.y q) with
      | .error e => .exn e
      | .ok c' => .ok c' ("Y gate on qubit " ++ Nat.repr q)
  else if t = "z" then
    match pyIdx g.qubits 0 with
    | .error e => .exn e
    | .ok q =>
      match c.apply1 q (.z q) with
      | .error e => .exn e
      | .ok c' => .ok c' ("Z gate on qubit " ++ Nat.repr q)
  else if t = "cx" then
    match pyIdx g.qubits 0 with
    | .error e => .exn e
    | .ok q0 =>
      match pyIdx g.qubits 1 with
      | .error e => .exn e
      | .ok q1 =>
        match c.apply2 q0 q1 (.cx q0 q1) with
        | .error e => .exn e
        | .ok c' => .ok c' ("CNOT gate from qubit " ++ Nat.repr q0 ++ " to " ++ Nat.repr q1)
  else if t = "measure" then
    match pyIdx g.qubits 0 with
    | .error e => .exn e
    | .ok q =>
      match c.applyMeasure q (g.classical_bit.getD q) with
      | .error e => .exn e
      | .ok c' => .ok c' ("Measure qubit " ++ Nat.repr q)
  else if t = "measure_all" then
    .ok c.measureAll "Measure all qubits"
  else
    .unsupported t

/-- Outcome of the whole gate loop: all applied, early return on an
unsupported kind, or an uncaught exception; in each case carrying the
circuit as mutated so far (the source mutates the registry's circuit
object in place). -/
inductive BatchOutcome where
  | done (c : Circuit) (descs : List String)
  | unsupported (c : Circuit) (descs : List String) (t : String)
  | raised (c : Circuit) (e : PyExn)
deriving Repr

/-- The `for gate in gates` loop of `add_gates`. -/
def runBasicGates : Circuit → List String → List GateSpec → BatchOutcome
  | c, descs, [] => .done c descs
  | c, descs, g :: rest =>
    match basicStep c g with
    | .ok c' d => runBasicGates c' (descs ++ [d]) rest
    | .unsupported t => .unsupported c descs t
    | .exn e => .raised c e

/-- Tool result: final registry state, and either the returned string or
an exception that escaped the tool. -/
abbrev ToolOut := Registry × Except PyExn String

/-- Tool `add_gates` (src/main.py lines 62-112).  No `try`/`except`: an
-exception from a delegate call escapes as `.error`. -/
def add_gates (reg : Registry) (circuit_name : String) (gates : List GateSpec) : ToolOut :=
  match regFind? reg circuit_name with
  | none => (reg, .ok ("Circuit '" ++ circuit_name ++ "' not found. Create it first."))
  | some c =>
    match runBasicGates c [] gates with
    | .done c' descs =>
      (regSet reg circuit_name c',
       .ok ("Applied gates to '" ++ circuit_name ++ "': " ++ String.intercalate ", " descs))
    | .unsupported c' _ t =>
      (regSet reg circuit_name c', .ok ("Unsupported gate type: " ++ t))
    | .raised c' e => (regSet reg circuit_name c', .error e)

/-- The repeated single-qubit branch shape of `add_advanced_gates`' loop:
read `qubits[0]`, apply the gate, record the description. -/
def advGate1 (c : Circuit) (g : GateSpec) (mk : Nat → Op) (desc : Nat → String) : StepRes :=
  match pyIdx g.qubits 0 with
  | .error e => .exn e
  | .ok q =>
    match c.apply1 q (mk q) with
    | .error e => .exn e
    | .ok c' => .ok c' (desc q)

/-- The repeated two-qubit branch shape of `add_advanced_gates`' loop:
read `qubits[0]` and `qubits[1]`, apply the gate, record the description. -/
def advGate2 (c : Circuit) (g : GateSpec) (mk : Nat → Nat → Op) (desc : Nat → Nat → String) :
    StepRes :=
  match pyIdx g.qubits 0 with
  | .error e => .exn e
  | .ok q0 =>
    match pyIdx g.qubits 1 with
    | .error e => .exn e
    | .ok q1 =>
      match c.apply2 q0 q1 (mk q0 q1) with
      | .error e => .exn e
      | .ok c' => .ok c' (desc q0 q1)

/-- The body of the `for gate in gates` loop of `add_advanced_gates`:
dispatch on the lower-cased `type` over the advanced kinds (each branch
follows the per-arity shape `advGate1`/`advGate2` the source repeats
verbatim). -/
def advancedStep (c : Circuit) (g : GateSpec) : StepRes :=
  let t := pyLower g.type
  let angle := g.params.headD 0
  if t = "rx" then
    advGate1 c g (fun q => .rot "rx" angle [q])
      (fun q => "RX(" ++ toString angle ++ ") gate on qubit " ++ Nat.repr q)
  else if t = "ry" then
    advGate1 c g (fun q => .rot "ry" angle [q])
      (fun q => "RY(" ++ toString angle ++ ") gate on qubit " ++ Nat.repr q)
  else if t = "rz" then
    advGate1 c g (fun q => .rot "rz" angle [q])
      (fun q => "RZ(" ++ toString angle ++ ") gate on qubit " ++ Nat.repr q)
  else if t = "rxx" then
    advGate2 c g (fun q0 q1 => .rot "rxx" angle [q0, q1])
      (fun q0 q1 => "RXX(" ++ toString angle ++ ") gate on qubits " ++ Nat.repr q0 ++ ", "
        ++ Nat.repr q1)
  else if t = "ryy" then
    advGate2 c g (fun q0 q1 => .rot "ryy" angle [q0, q1])
      (fun q0 q1 => "RYY(" ++ toString angle ++ ") gate on qubits " ++ Nat.repr q0 ++ ", "
        ++ Nat.repr q1)
  else if t = "rzz" then
    advGate2 c g (fun q0 q1 => .rot "rzz" angle [q0, q1])
      (fun q0 q1 => "RZZ(" ++ toString angle ++ ") gate on qubits " ++ Nat.repr q0 ++ ", "
        ++ Nat.repr q1)
  else if t = "u" then
    let theta := g.params.getD 0 0
    let phi := g.params.getD 1 0
    let lam := g.params.getD 2 0
    advGate1 c g (fun q => .u theta phi lam q)
      (fun q => "U(" ++ toString theta ++ ", " ++ toString phi ++ ", " ++ toString lam
        ++ ") gate on qubit " ++ Nat.repr q)
  else if t = "swap" then
    advGate2 c g (fun q0 q1 => .swap q0 q1)
      (fun q0 q1 => "SWAP gate on qubits " ++ Nat.repr q0 ++ ", " ++ Nat.repr q1)
  else if t = "s" then
    advGate1 c g (fun q => .s q) (fun q => "S gate on qubit " ++ Nat.repr q)
  else if t = "sdg" then
    advGate1 c g (fun q => .sdg q) (fun q => "S† gate on qubit " ++ Nat.repr q)
  else if t = "t" then
    advGate1 c g (fun q => .t q) (fun q => "T gate on qubit " ++ Nat.repr q)
  else if t = "tdg" then
    advGate1 c g (fun q => .tdg q) (fun q => "T† gate on qubit " ++ Nat.repr q)
  else
    .unsupported t

/-- The `for gate in gates` loop of `add_advanced_gates`. -/
def runAdvancedGates : Circuit → List String → List GateSpec → BatchOutcome
  | c, descs, [] => .done c descs
  | c, descs, g :: rest =>
    match advancedStep c g with
    | .ok c' d => runAdvancedGates c' (descs ++ [d]) rest
    | .unsupported t => .unsupported c descs t
    | .exn e => .raised c e

/-- Tool `add_advanced_gates` (src/main.py lines 519-598).  The loop runs
inside `try`/`except`, so an exception becomes a returned error string. -/
def add_advanced_gates (reg : Registry) (circuit_name : String) (gates : List GateSpec) : ToolOut :=
  match regFind? reg circuit_name with
  | none => (reg, .ok ("Circuit '" ++ circuit_name ++ "' not found. Create it first."))
  | some c =>
    match runAdvancedGates c [] gates with
    | .done c' descs =>
      (regSet reg circuit_name c',
       .ok ("Applied advanced gates to '" ++ circuit_name ++ "': " ++ String.intercalate ", " descs))
    | .unsupported c' _ t =>
      (regSet reg circuit_name c', .ok ("Unsupported advanced gate type: " ++ t))
    | .raised c' e =>
      (regSet reg circuit_name c',
       .ok ("Error adding advanced gates to '" ++ circuit_name ++ "': " ++ e.msg))

/-- A JSON value, for outputs the source produces via `json.dumps`.
Numbers are exact rationals modelling Python ints and floats. -/
inductive Json where
  | null
  | bool (b : Bool)
  | num (q : ℚ)
  | str (s : String)
  | arr (items : List Json)
  | obj (fields : List (String × Json))
deriving Repr

/-- `n` two-space indentation steps, as `json.dumps(..., indent=2)` uses. -/
def indentStr (lvl : Nat) : String :=
  (List.replicate (2 * lvl) ' ').asString

/-- Digits after the decimal point of `num/den` (long division, 17-digit
fuel), for rendering non-integer rationals. -/
def fracDigits : Nat → Nat → Nat → List Char
  | 0, _, _ => []
  | _ + 1, 0, _ => []
  | fuel + 1, num, den => Nat.digitChar (num * 10 / den) :: fracDigits fuel (num * 10 % den) den

/-- Decimal rendering of the rational model of a Python number: integers
render like Python ints, other values with a decimal expansion (a model
of Python float `repr`). -/
def renderNum (q : ℚ) : String :=
  let sign := if q < 0 then "-" else ""
  let a := q.num.natAbs
  if q.den = 1 then sign ++ Nat.repr a
  else sign ++ Nat.repr (a / q.den) ++ "." ++ (fracDigits 17 (a % q.den) q.den).asString

mutual
/-- `json.dumps(v, indent=2)` at nesting level `lvl` (string escaping is
omitted: the keys and strings produced by the tools need none). -/
def Json.dumpsAt : Nat → Json → String
  | _, .null => "null"
  | _, .bool true => "true"
  | _, .bool false => "false"
  | _, .num q => renderNum q
  | _, .str s => "\"" ++ s ++ "\""
  | _, .arr [] => "[]"
  | lvl, .arr (x :: xs) =>
    "[\n" ++ String.intercalate ",\n" (Json.dumpsItems (lvl + 1) (x :: xs))
    ++ "\n" ++ indentStr lvl ++ "]"
  | _, .obj [] => "\x7b\x7d"
  | lvl, .obj (f :: fs) =>
    "\x7b\n" ++ String.intercalate ",\n" (Json.dumpsFields (lvl + 1) (f :: fs))
    ++ "\n" ++ indentStr lvl ++ "\x7d"

/-- Rendered lines of an object's fields. -/
def Json.dumpsFields : Nat → List (String × Json) → List String
  | _, [] => []
  | lvl, (k, v) :: rest =>
    (indentStr lvl ++ "\"" ++ k ++ "\": " ++ Json.dumpsAt lvl v) :: Json.dumpsFields lvl rest

/-- Rendered lines of an array's items. -/
def Json.dumpsItems : Nat → List Json → List String
  | _, [] => []
  | lvl, v :: rest => (indentStr lvl ++ Json.dumpsAt lvl v) :: Json.dumpsItems lvl rest
end

/-- `json.dumps(v, indent=2)`. -/
def Json.dumps (v : Json) : String := Json.dumpsAt 0 v

/-- `_generate_unique_circuit_name` combines a timestamp and a UUID
fragment; both are environment input, so the generated name is a
parameter of the embedded creation tool. -/
def generatedName (timestamp : Nat) (shortUuid : String) : String :=
  "circuit_" ++ Nat.repr timestamp ++ "_" ++ shortUuid

/-- The candidate name tried by the collision loop at counter `k`:
`f"{original_name}_{counter}"`. -/
def candName (orig : String) (k : Nat) : String :=
  orig ++ "_" ++ Nat.repr k

/-- The `while name in circuits` suffixing loop of
`create_quantum_circuit`, with explicit fuel; `registry size + 1` fuel is
always enough (proved below), so the fuel-exhausted fallback is
unreachable. -/
def resolveLoop (reg : Registry) (orig : String) : Nat → String → Nat → String
  | 0, name, _ => name
  | fuel + 1, name, counter =>
    if regContains reg name then resolveLoop reg orig fuel (candName orig counter) (counter + 1)
    else name

/-- Name-collision resolution for an explicitly requested name. -/
def resolveName (reg : Registry) (orig : String) : String :=
  resolveLoop reg orig (reg.length + 1) orig 1

/-- Tool `create_quantum_circuit` (src/main.py lines 26-60).  `autoName`
is the value `_generate_unique_circuit_name()` would produce (environment
input). -/
def create_quantum_circuit (autoName : String) (reg : Registry) (num_qubits : Nat)
    (num_classical_bits : Option Nat) (name : Option String) : Registry × String :=
  let ncb := num_classical_bits.getD num_qubits
  let finalName :=
    match name with
    | none => autoName
    | some n => resolveName reg n
  (regSet reg finalName ⟨num_qubits, ncb, []⟩,
   "Created quantum circuit '" ++ finalName ++ "' with " ++ Nat.repr num_qubits
   ++ " qubits and " ++ Nat.repr ncb ++ " classical bits")

/-- Tool `run_circuit` (src/main.py lines 114-147).  `transpileO` models
`transpile(circuit, backend)` and `runO` models
`backend.run(...)...get_counts()`; the tool has no `try`/`except`, so
delegate failures escape. -/
def run_circuit (transpileO : Circuit → Except PyExn Circuit)
    (runO : Circuit → Nat → Except PyExn (List (String × Nat)))
    (reg : Registry) (circuit_name : String) (shots : Nat) : ToolOut :=
  match regFind? reg circuit_name with
  | none => (reg, .ok ("Circuit '" ++ circuit_name ++ "' not found"))
  | some c =>
    match transpileO c with
    | .error e => (reg, .error e)
    | .ok tc =>
      match runO tc shots with
      | .error e => (reg, .error e)
      | .ok counts =>
        (reg, .ok (Json.dumps (.obj
          [("circuit", .str circuit_name),
           ("shots", .num shots),
           ("results", .obj (counts.map (fun p => (p.1, .num p.2)))),
           ("total_counts", .num (counts.foldl (fun a p => a + p.2) 0 : Nat))])))

/-- `circuit.count_ops()`: instruction counts keyed by name, in order of
first appearance. -/
def countOps (c : Circuit) : List (String × Nat) :=
  c.ops.foldl
    (fun acc op =>
      let n := op.qiskitName
      if (acc.find? (fun p => p.1 = n)).isSome
      then acc.map (fun p => if p.1 = n then (p.1, p.2 + 1) else p)
      else acc ++ [(n, 1)])
    []

/-- `circuit.depth()`: longest path through the instruction sequence,
tracking a level per qubit wire and per classical wire; directives
synchronise wires without counting. -/
def Circuit.depth (c : Circuit) : Nat :=
  let final := c.ops.foldl
    (fun (lv : (Nat → Nat) × (Nat → Nat)) op =>
      let m := max ((op.qubits.map lv.1).foldl max 0) ((op.clbits.map lv.2).foldl max 0)
      let m' := if op.isDirective then m else m + 1
      (fun i => if op.qubits.contains i then m' else lv.1 i,
       fun i => if op.clbits.contains i then m' else lv.2 i))
    (fun _ => 0, fun _ => 0)
  max (((List.range c.numQubits).map final.1).foldl max 0)
      (((List.range c.numClbits).map final.2).foldl max 0)

/-- Tool `get_circuit_info` (src/main.py lines 149-175). -/
def get_circuit_info (reg : Registry) (circuit_name : String) : ToolOut :=
  match regFind? reg circuit_name with
  | none => (reg, .ok ("Circuit '" ++ circuit_name ++ "' not found"))
  | some c =>
    (reg, .ok (Json.dumps (.obj
      [("name", .str circuit_name),
       ("num_qubits", .num c.numQubits),
       ("num_classical_bits", .num c.numClbits),
       ("depth", .num c.depth),
       ("size", .num c.size),
       ("width", .num (c.numQubits + c.numClbits)),
       ("gate_counts", .obj ((countOps c).map (fun p => (p.1, .num p.2))))])))

/-- Tool `visualize_circuit` (src/main.py lines 177-192); `drawO` models
`str(circuit.draw(output='text'))`. -/
def visualize_circuit (drawO : Circuit → String) (reg : Registry) (circuit_name : String) : ToolOut :=
  match regFind? reg circuit_name with
  | none => (reg, .ok ("Circuit '" ++ circuit_name ++ "' not found"))
  | some c => (reg, .ok (drawO c))

/-- Tool `list_circuits` (src/main.py lines 314-333). -/
def list_circuits (reg : Registry) : ToolOut :=
  if reg.isEmpty then (reg, .ok "No circuits created yet")
  else
    (reg, .ok (Json.dumps (.obj (reg.map (fun p =>
      (p.1, Json.obj
        [("qubits", .num p.2.numQubits),
         ("classical_bits", .num p.2.numClbits),
         ("gates", .num p.2.size)]))))))

/-- `circuit.remove_final_measurements(inplace=True)` on the working
copy: drop the trailing run of measurement/barrier instructions (model of
the qiskit library routine; unused-register removal is irrelevant here). -/
def removeFinalMeasurements (c : Circuit) : Circuit :=
  { c with
    ops := ((c.ops.reverse.dropWhile
      (fun op => match op with | .measure _ _ => true | .barrier _ => true | _ => false)).reverse) }

/-- The statevector-analysis numbers the `Statevector` delegate yields:
per-basis-state probability dictionary, raw probability array, and
amplitude magnitudes. -/
structure SvData where
  probDict : List (String × ℚ)
  probs : List ℚ
  amplMags : List ℚ
deriving Repr

/-- Tool `analyze_statevector` (src/main.py lines 335-383).  `svO` models
the `Statevector(circuit_copy)` computation (it may raise); the `try`
handler converts a failure into a descriptive string. -/
def analyze_statevector (svO : Circuit → Except PyExn SvData)
    (reg : Registry) (circuit_name : String) : ToolOut :=
  match regFind? reg circuit_name with
  | none => (reg, .ok ("Circuit '" ++ circuit_name ++ "' not found"))
  | some c =>
    let copy := removeFinalMeasurements c
    match svO copy with
    | .error e =>
      (reg, .ok ("Error analyzing statevector for '" ++ circuit_name ++ "': " ++ e.msg))
    | .ok d =>
      let sorted := d.probDict.mergeSort (fun a b => b.2 ≤ a.2)
      (reg, .ok (Json.dumps (.obj
        [("circuit", .str circuit_name),
         ("num_qubits", .num c.numQubits),
         ("state_dimension", .num d.amplMags.length),
         ("probabilities", .obj ((sorted.take 10).map (fun p => (p.1, .num p.2)))),
         ("total_probability", .num (d.probs.foldl (· + ·) 0)),
         ("most_probable_state",
           match sorted.head? with | some p => .str p.1 | none => .null),
         ("max_probability", .num ((sorted.head?.map Prod.snd).getD 0)),
         ("amplitudes_magnitude", .arr ((d.amplMags.take 16).map Json.num))])))

/-- The density-matrix numbers the delegates yield: purity, von Neumann
entropy, trace, and the entropy of the reduced state after tracing out
qubit 0. -/
structure DmData where
  purity : ℚ
  entropy : ℚ
  trace : ℚ
  ptEntropy : ℚ
deriving Repr

/-- Tool `compute_density_matrix` (src/main.py lines 385-446).  `dmO`
models the `Statevector`/`DensityMatrix`/eigenvalue computations (it may
raise); the `try` handler converts a failure into a descriptive string.
The `ImportError` fallback for `partial_trace` is not modelled (that
module import always succeeds in the deployed library). -/
def compute_density_matrix (dmO : Circuit → Except PyExn DmData)
    (reg : Registry) (circuit_name : String) : ToolOut :=
  match regFind? reg circuit_name with
  | none => (reg, .ok ("Circuit '" ++ circuit_name ++ "' not found"))
  | some c =>
    let copy := removeFinalMeasurements c
    match dmO copy with
    | .error e =>
      (reg, .ok ("Error computing density matrix for '" ++ circuit_name ++ "': " ++ e.msg))
    | .ok d =>
      let base : List (String × Json) :=
        [("circuit", .str circuit_name),
         ("num_qubits", .num c.numQubits),
         ("purity", .num d.purity),
         ("entropy", .num d.entropy),
         ("is_pure_state", .bool (decide (d.purity > 99 / 100))),
         ("trace", .num d.trace)]
      let full :=
        if 2 ≤ c.numQubits then
          base ++ [("partial_trace_entropy", .num d.ptEntropy),
                   ("entangled", .bool (decide (d.ptEntropy > 1 / 100)))]
        else base
      (reg, .ok (Json.dumps (.obj full)))

/-- Round half to even to an integer (the tie-breaking Python's `round`
uses). -/
def roundHalfEven (q : ℚ) : ℤ :=
  let f := ⌊q⌋
  let r := q - f
  if r < 1 / 2 then f
  else if 1 / 2 < r then f + 1
  else if f % 2 = 0 then f else f + 1

/-- Python `round(x, 2)` on the rational model of the float `x`. -/
def pyRound2 (q : ℚ) : ℚ :=
  (roundHalfEven (q * 100) : ℚ) / 100

/-- The optimization delegate selected by `optimization_level`: level 0
is `circuit.copy()`, levels 1 and 2 run the
`Optimize1qGates`/`CommutativeCancellation` pass manager (`pmRun`), level
3 runs `transpile(circuit, optimization_level=3)` (`transp3`). -/
def optDelegate (pmRun transp3 : Circuit → Except PyExn Circuit)
    (level : Int) (c : Circuit) : Except PyExn Circuit :=
  if level = 0 then .ok c
  else if level = 1 then pmRun c
  else if level = 2 then pmRun c
  else transp3 c

/-- The comparison record `optimize_circuit` builds on success
(src/main.py lines 501-512). -/
def optimizeResult (circuit_name optimized_name : String) (level : Int)
    (c oc : Circuit) : List (String × Json) :=
  [("original_circuit", .str circuit_name),
   ("optimized_circuit", .str optimized_name),
   ("optimization_level", .num level),
   ("original_size", .num c.size),
   ("optimized_size", .num oc.size),
   ("size_reduction", .num ((c.size : ℤ) - (oc.size : ℤ))),
   ("original_depth", .num c.depth),
   ("optimized_depth", .num oc.depth),
   ("depth_reduction", .num ((c.depth : ℤ) - (oc.depth : ℤ))),
   ("improvement_percentage",
     .num (if c.size > 0
           then pyRound2 (((c.size : ℚ) - (oc.size : ℚ)) / (c.size : ℚ) * 100)
           else 0))]

/-- Tool `optimize_circuit` (src/main.py lines 448-517).  `token` is the
`str(uuid.uuid4())[:8]` fragment (environment input). -/
def optimize_circuit (pmRun transp3 : Circuit → Except PyExn Circuit) (token : String)
    (reg : Registry) (circuit_name : String) (optimization_level : Int) : ToolOut :=
  match regFind? reg circuit_name with
  | none => (reg, .ok ("Circuit '" ++ circuit_name ++ "' not found"))
  | some c =>
    if (([0, 1, 2, 3] : List Int).contains optimization_level) = false then
      (reg, .ok "Optimization level must be 0, 1, 2, or 3")
    else
      match optDelegate pmRun transp3 optimization_level c with
      | .error e =>
        (reg, .ok ("Error optimizing circuit '" ++ circuit_name ++ "': " ++ e.msg))
      | .ok oc =>
        let optimized_name :=
          circuit_name ++ "_opt" ++ Int.repr optimization_level ++ "_" ++ token
        (regSet reg optimized_name oc,
         .ok (Json.dumps (.obj (optimizeResult circuit_name optimized_name optimization_level c oc))))

/-- `f"{x:.3f}"`: fixed-point rendering with three decimals of the
rational model of the float parameter. -/
def fmt3 (q : ℚ) : String :=
  let m := roundHalfEven (q * 1000)
  let sign := if m < 0 then "-" else ""
  let a := m.natAbs
  let frac := a % 1000
  let fracStr :=
    if frac < 10 then "00" ++ Nat.repr frac
    else if frac < 100 then "0" ++ Nat.repr frac
    else Nat.repr frac
  sign ++ Nat.repr (a / 1000) ++ "." ++ fracStr

/-- The initial "current node" of qubit wire `i` in the Mermaid emitter:
the `Q{i}_start` node. -/
def qStart (i : Nat) : String := "Q" ++ Nat.repr i ++ "_start"

/-- Pointwise update of the `qubit_current_nodes` map for all wires in
`qs`. -/
def updCur (cur : Nat → String) (qs : List Nat) (node : String) : Nat → String :=
  fun i => if qs.contains i then node else cur i

/-- The `for qubit in qubits` emission loop of the rotation and generic
branches: one edge per wire from its current node, updating the current
node as it goes. -/
def wireLoop (cur : Nat → String) (node : String) : List Nat → ((Nat → String) × List String)
  | [] => (cur, [])
  | q :: qs =>
    let next := wireLoop (fun i => if i = q then node else cur i) node qs
    (next.1, ("    " ++ cur q ++ " --> " ++ node) :: next.2)

/-- One iteration of the instruction loop of `visualize_circuit_mermaid`
(src/main.py lines 230-295): emit the instruction's node and edges and
update the per-qubit current-node map.  Classical wires have no
current-node map in the source; a measurement emits an edge to a fresh
`C{i}_end{gc}` node instead. -/
def mermaidStep (cur : Nat → String) (gc : Nat) (op : Op) : ((Nat → String) × List String) :=
  let g := pyUpper op.qiskitName
  if g = "H" then
    let node := "H" ++ Nat.repr gc
    let q := op.qubits.headD 0
    (updCur cur [q] node,
     ["    " ++ node ++ "[H Gate]", "    " ++ cur q ++ " --> " ++ node])
  else if g = "X" ∨ g = "Y" ∨ g = "Z" then
    let node := g ++ Nat.repr gc
    let q := op.qubits.headD 0
    (updCur cur [q] node,
     ["    " ++ node ++ "[" ++ g ++ " Gate]", "    " ++ cur q ++ " --> " ++ node])
  else if g = "CX" ∨ g = "CNOT" then
    let node := "CNOT" ++ Nat.repr gc
    let q0 := op.qubits.headD 0
    let q1 := op.qubits.getD 1 0
    (updCur cur [q0, q1] node,
     ["    " ++ node ++ "[CNOT Gate]",
      "    " ++ cur q0 ++ " --> " ++ node,
      "    " ++ cur q1 ++ " --> " ++ node])
  else if g = "MEASURE" then
    let node := "M" ++ Nat.repr gc
    let q := op.qubits.headD 0
    (updCur cur [q] node,
     ["    " ++ node ++ "[Measure]", "    " ++ cur q ++ " --> " ++ node]
     ++ (match op.clbits with
         | [] => []
         | cb :: _ => ["    " ++ node ++ " --> C" ++ Nat.repr cb ++ "_end" ++ Nat.repr gc]))
  else if pyStarts g "R" then
    let paramStr :=
      match op.params with
      | [] => ""
      | p :: _ => "(" ++ fmt3 p ++ ")"
    let node := g ++ Nat.repr gc
    let loop := wireLoop cur node op.qubits
    (loop.1, ("    " ++ node ++ "[" ++ g ++ paramStr ++ "]") :: loop.2)
  else if g = "SWAP" then
    let node := "SWAP" ++ Nat.repr gc
    let q0 := op.qubits.headD 0
    let q1 := op.qubits.getD 1 0
    (updCur cur [q0, q1] node,
     ["    " ++ node ++ "[SWAP Gate]",
      "    " ++ cur q0 ++ " --> " ++ node,
      "    " ++ cur q1 ++ " --> " ++ node])
  else
    let node := g ++ Nat.repr gc
    let loop := wireLoop cur node op.qubits
    (loop.1, ("    " ++ node ++ "[" ++ g ++ " Gate]") :: loop.2)

/-- The instruction loop of `visualize_circuit_mermaid`: threads the
per-qubit current-node map and the running `gate_counter`, concatenating
each instruction's emitted lines. -/
def mermaidSteps (cur : Nat → String) (gc : Nat) : List Op → ((Nat → String) × List String)
  | [] => (cur, [])
  | op :: rest =>
    let st := mermaidStep cur (gc + 1) op
    let next := mermaidSteps st.1 (gc + 1) rest
    (next.1, st.2 ++ next.2)

/-- All lines of the Mermaid flowchart `visualize_circuit_mermaid` emits
for a circuit: header, per-qubit and per-classical-bit start nodes, the
instruction walk, per-qubit terminal nodes, and styling. -/
def mermaidLines (c : Circuit) : List String :=
  let steps := mermaidSteps qStart 0 c.ops
  ["flowchart TD"]
  ++ (List.range c.numQubits).map
       (fun i => "    Q" ++ Nat.repr i ++ "_start[|0⟩ Q" ++ Nat.repr i ++ "]")
  ++ (List.range c.numClbits).map
       (fun i => "    C" ++ Nat.repr i ++ "_start[0 C" ++ Nat.repr i ++ "]")
  ++ steps.2
  ++ ((List.range c.numQubits).map
       (fun i =>
         ["    Q" ++ Nat.repr i ++ "_final[Q" ++ Nat.repr i ++ " Final]",
          "    " ++ steps.1 i ++ " --> Q" ++ Nat.repr i ++ "_final"])).flatten
  ++ ["",
      "    %% Styling",
      "    classDef qubitNode fill:#e1f5fe,stroke:#01579b,stroke-width:2px",
      "    classDef gateNode fill:#f3e5f5,stroke:#4a148c,stroke-width:2px",
      "    classDef measureNode fill:#fff3e0,stroke:#e65100,stroke-width:2px",
      "    classDef classicalNode fill:#e8f5e8,stroke:#1b5e20,stroke-width:2px"]

/-- Tool `visualize_circuit_mermaid` (src/main.py lines 194-312). -/
def visualize_circuit_mermaid (reg : Registry) (circuit_name : String) : ToolOut :=
  match regFind? reg circuit_name with
  | none => (reg, .ok ("Circuit '" ++ circuit_name ++ "' not found"))
  | some c => (reg, .ok (String.intercalate "\n" (mermaidLines c)))

/-! ## Registry lemmas -/

theorem regFind?_regSet_self (reg : Registry) (k : String) (v : Circuit) :
    regFind? (regSet reg k v) k = some v := by
  induction reg with
  | nil => simp [regSet, regFind?]
  | cons p rest ih =>
    by_cases h : p.1 = k
    · simp [regSet, regFind?, h]
    · simp [regSet, regFind?, h, ih]

theorem regFind?_regSet_ne (reg : Registry) {k k' : String} (v : Circuit) (h : k' ≠ k) :
    regFind? (regSet reg k v) k' = regFind? reg k' := by
  have hkk : ¬ (k = k') := fun hh => h hh.symm
  induction reg with
  | nil => simp [regSet, regFind?, hkk]
  | cons p rest ih =>
    by_cases hp : p.1 = k
    · simp [regSet, regFind?, hp, hkk]
    · by_cases hp' : p.1 = k'
      · simp [regSet, regFind?, hp, hp', h]
      · simp [regSet, regFind?, hp, hp', ih]

theorem regContains_iff_mem (reg : Registry) (n : String) :
    regContains reg n = true ↔ ∃ c, (n, c) ∈ reg := by
  induction reg with
  | nil => simp [regContains, regFind?]
  | cons p rest ih =>
    obtain ⟨k, c⟩ := p
    by_cases h : k = n
    · subst h
      refine iff_of_true ?_ ⟨c, List.mem_cons_self _ _⟩
      simp [regContains, regFind?]
    · have hstep : regContains ((k, c) :: rest) n = regContains rest n := by
        simp [regContains, regFind?, h]
      rw [hstep, ih]
      constructor
      · rintro ⟨c', hc'⟩; exact ⟨c', List.mem_cons_of_mem _ hc'⟩
      · rintro ⟨c', hc'⟩
        rcases List.mem_cons.mp hc' with heq | hmem
        · cases heq; exact absurd rfl h
        · exact ⟨c', hmem⟩

/-! ## Decimal rendering is injective

`Nat.repr` has no injectivity lemma in the library; we derive one by
decoding the digit list back to the number. -/

/-- Numeric value of a decimal digit character. -/
def decDigit (c : Char) : Nat := c.toNat - 48

/-- Decode a decimal digit list left to right, starting from accumulator
`a`. -/
def decValFrom (a : Nat) (l : List Char) : Nat :=
  l.foldl (fun acc c => 10 * acc + decDigit c) a

/-- Number of decimal digits of `n` (1 for `n < 10`). -/
def ndLen (n : Nat) : Nat :=
  if n < 10 then 1
  else ndLen (n / 10) + 1
termination_by n
decreasing_by exact Nat.div_lt_self (by omega) (by omega)

theorem decDigit_digitChar {m : Nat} (h : m < 10) : decDigit (Nat.digitChar m) = m := by
  interval_cases m <;> rfl

theorem decValFrom_toDigitsCore :
    ∀ fuel n ds a, n < fuel →
      decValFrom a (Nat.toDigitsCore 10 fuel n ds) = decValFrom (a * 10 ^ ndLen n + n) ds := by
  intro fuel
  induction fuel with
  | zero => intro n ds a hn; omega
  | succ fuel ih =>
    intro n ds a hn
    by_cases h10 : n / 10 = 0
    · have hlt : n < 10 := by omega
      have h1 : ndLen n = 1 := by rw [ndLen]; simp [hlt]
      simp only [Nat.toDigitsCore, h10, if_true]
      simp only [decValFrom, List.foldl_cons, Nat.mod_eq_of_lt hlt,
        decDigit_digitChar hlt, h1]
      congr 1
      ring
    · have h10' : 10 ≤ n := by
        by_contra hh
        exact h10 (Nat.div_eq_of_lt (by omega))
      have hdiv : n / 10 < fuel := by
        have : n / 10 < n := Nat.div_lt_self (by omega) (by omega)
        omega
      simp only [Nat.toDigitsCore, h10, if_false]
      rw [ih (n / 10) _ a hdiv]
      simp only [decValFrom, List.foldl_cons, decDigit_digitChar (Nat.mod_lt n (by omega))]
      have hnd : ndLen n = ndLen (n / 10) + 1 := by
        rw [ndLen]; simp [show ¬ n < 10 by omega]
      rw [hnd]
      congr 1
      calc 10 * (a * 10 ^ ndLen (n / 10) + n / 10) + n % 10
          = a * (10 ^ ndLen (n / 10) * 10) + (10 * (n / 10) + n % 10) := by ring
        _ = a * 10 ^ (ndLen (n / 10) + 1) + n := by rw [Nat.div_add_mod]; ring
  
theorem decValFrom_toDigits (n : Nat) : decValFrom 0 (Nat.toDigits 10 n) = n := by
  have := decValFrom_toDigitsCore (n + 1) n [] 0 (Nat.lt_succ_self n)
  simpa [Nat.toDigits, decValFrom] using this

theorem natRepr_data_inj {m n : Nat} (h : (Nat.repr m).data = (Nat.repr n).data) : m = n := by
  have hd : Nat.toDigits 10 m = Nat.toDigits 10 n := h
  have := congrArg (decValFrom 0) hd
  simpa [decValFrom_toDigits] using this

theorem candName_injective (orig : String) : Function.Injective (candName orig) := by
  intro i j h
  apply natRepr_data_inj
  have hdata := congrArg String.data h
  simp only [candName, String.data_append] at hdata
  exact List.append_cancel_left hdata

theorem candName_ne_orig (orig : String) (k : Nat) : candName orig k ≠ orig := by
  intro h
  have := congrArg String.length h
  simp only [candName, String.length_append] at this
  have h1 : ("_" : String).length = 1 := rfl
  omega

/-! ## The name-collision loop always finds a fresh suffixed name -/

theorem exists_fresh_cand (reg : Registry) (orig : String)
    (h : regContains reg orig = true) :
    ∃ k, 1 ≤ k ∧ k ≤ reg.length ∧ regContains reg (candName orig k) = false := by
  by_contra hc
  push_neg at hc
  have hall : ∀ k, 1 ≤ k → k ≤ reg.length → regContains reg (candName orig k) = true := by
    intro k h1 h2
    cases hcb : regContains reg (candName orig k) with
    | false => exact absurd hcb (hc k h1 h2)
    | true => rfl
  set keys := reg.map Prod.fst with hkeys
  have hsubkeys : ∀ n, regContains reg n = true → n ∈ keys := by
    intro n hn
    obtain ⟨c, hcmem⟩ := (regContains_iff_mem reg n).mp hn
    exact List.mem_map.mpr ⟨(n, c), hcmem, rfl⟩
  set L := orig :: (List.range' 1 reg.length).map (candName orig) with hL
  have hnodup : L.Nodup := by
    rw [hL]
    refine List.nodup_cons.mpr ⟨?_, ?_⟩
    · intro hmem
      obtain ⟨k, _, hk⟩ := List.mem_map.mp hmem
      exact candName_ne_orig orig k hk
    · exact (List.nodup_range' 1 reg.length).map (candName_injective orig)
  have hsub : L ⊆ keys := by
    intro n hn
    rw [hL] at hn
    rcases List.mem_cons.mp hn with heq | hmem
    · subst heq; exact hsubkeys _ h
    · obtain ⟨k, hkr, hk⟩ := List.mem_map.mp hmem
      have hkb := List.mem_range'_1.mp hkr
      subst hk
      exact hsubkeys _ (hall k (by omega) (by omega))
  have hlen : L.length ≤ keys.length := (hnodup.subperm hsub).length_le
  rw [hL, hkeys] at hlen
  simp [List.length_range'] at hlen

theorem resolveLoop_finds (reg : Registry) (orig : String) :
    ∀ fuel k,
      (∃ j, k ≤ j ∧ j < k + fuel ∧ regContains reg (candName orig j) = false) →
      ∃ m, resolveLoop reg orig fuel (candName orig k) (k + 1) = candName orig m ∧
        k ≤ m ∧ regContains reg (candName orig m) = false ∧
        ∀ j, k ≤ j → j < m → regContains reg (candName orig j) = true := by
  intro fuel
  induction fuel with
  | zero =>
    rintro k ⟨j, h1, h2, _⟩
    omega
  | succ fuel ih =>
    rintro k ⟨j, hkj, hjf, hjfree⟩
    cases hk : regContains reg (candName orig k) with
    | false =>
      refine ⟨k, ?_, le_refl k, hk, fun j h1 h2 => absurd h2 (by omega)⟩
      rw [resolveLoop, hk]
      simp
    | true =>
      have hjk : j ≠ k := fun hh => by rw [hh] at hjfree; rw [hjfree] at hk; cases hk
      obtain ⟨m, hmeq, hmk, hmfree, hmmin⟩ := ih (k + 1) ⟨j, by omega, by omega, hjfree⟩
      refine ⟨m, ?_, by omega, hmfree, ?_⟩
      · rw [resolveLoop, hk]
        simpa using hmeq
      · intro j' h1 h2
        rcases eq_or_lt_of_le h1 with heq | hlt
        · rw [← heq]; exact hk
        · exact hmmin j' (by omega) h2

theorem resolveName_of_contains (reg : Registry) (orig : String)
    (h : regContains reg orig = true) :
    ∃ m, 1 ≤ m ∧ resolveName reg orig = candName orig m ∧
      regContains reg (candName orig m) = false ∧
      ∀ j, 1 ≤ j → j < m → regContains reg (candName orig j) = true := by
  obtain ⟨k, hk1, hklen, hkfree⟩ := exists_fresh_cand reg orig h
  obtain ⟨m, hmeq, hm1, hmfree, hmmin⟩ :=
    resolveLoop_finds reg orig reg.length 1 ⟨k, hk1, by omega, hkfree⟩
  refine ⟨m, hm1, ?_, hmfree, hmmin⟩
  rw [resolveName, resolveLoop, h]
  simpa using hmeq

/-! ## Claim theorems -/

/-- C2: `create_quantum_circuit` with an explicit requested name that is
already registered stores the circuit under the requested name extended
with the first unused numeric suffix (`_1`, `_2`, … in increasing order),
and the circuit previously stored under the requested name — indeed every
entry other than the fresh one — is left unchanged. -/
theorem c2_create_collision_suffix (autoName : String) (reg : Registry) (nq : Nat)
    (ncb : Option Nat) (orig : String) (h : regContains reg orig = true) :
    ∃ m, 1 ≤ m ∧
      resolveName reg orig = candName orig m ∧
      regContains reg (candName orig m) = false ∧
      (∀ j, 1 ≤ j → j < m → regContains reg (candName orig j) = true) ∧
      (create_quantum_circuit autoName reg nq ncb (some orig)).1 =
        regSet reg (candName orig m) ⟨nq, ncb.getD nq, []⟩ ∧
      regFind? (create_quantum_circuit autoName reg nq ncb (some orig)).1 orig =
        regFind? reg orig ∧
      (∀ k, k ≠ candName orig m →
        regFind? (create_quantum_circuit autoName reg nq ncb (some orig)).1 k = regFind? reg k) := by
  obtain ⟨m, hm1, hres, hfree, hmin⟩ := resolveName_of_contains reg orig h
  have hcreate : (create_quantum_circuit autoName reg nq ncb (some orig)).1 =
      regSet reg (candName orig m) ⟨nq, ncb.getD nq, []⟩ := by
    simp [create_quantum_circuit, hres]
  have horig : orig ≠ candName orig m := fun hh => (candName_ne_orig orig m) hh.symm
  refine ⟨m, hm1, hres, hfree, hmin, hcreate, ?_, ?_⟩
  · rw [hcreate]; exact regFind?_regSet_ne reg _ horig
  · intro k hk; rw [hcreate]; exact regFind?_regSet_ne reg _ hk

/-- Witness for C2 at a concrete registry already holding `bell` and
`bell_1`: the loop lands on `bell_2`. -/
theorem c2_create_collision_suffix_witness :
    regContains [("bell", ⟨2, 2, []⟩), ("bell_1", ⟨1, 1, []⟩)] "bell" = true ∧
    ∃ m, 1 ≤ m ∧
      resolveName [("bell", ⟨2, 2, []⟩), ("bell_1", ⟨1, 1, []⟩)] "bell" = candName "bell" m ∧
      regContains [("bell", ⟨2, 2, []⟩), ("bell_1", ⟨1, 1, []⟩)] (candName "bell" m) = false ∧
      (∀ j, 1 ≤ j → j < m →
        regContains [("bell", ⟨2, 2, []⟩), ("bell_1", ⟨1, 1, []⟩)] (candName "bell" j) = true) ∧
      (create_quantum_circuit "auto" [("bell", ⟨2, 2, []⟩), ("bell_1", ⟨1, 1, []⟩)] 3 none
          (some "bell")).1 =
        regSet [("bell", ⟨2, 2, []⟩), ("bell_1", ⟨1, 1, []⟩)] (candName "bell" m) ⟨3, 3, []⟩ ∧
      regFind? (create_quantum_circuit "auto" [("bell", ⟨2, 2, []⟩), ("bell_1", ⟨1, 1, []⟩)] 3 none
          (some "bell")).1 "bell" =
        regFind? [("bell", ⟨2, 2, []⟩), ("bell_1", ⟨1, 1, []⟩)] "bell" ∧
      (∀ k, k ≠ candName "bell" m →
        regFind? (create_quantum_circuit "auto" [("bell", ⟨2, 2, []⟩), ("bell_1", ⟨1, 1, []⟩)] 3 none
            (some "bell")).1 k =
          regFind? [("bell", ⟨2, 2, []⟩), ("bell_1", ⟨1, 1, []⟩)] k) :=
  ⟨rfl, c2_create_collision_suffix "auto" [("bell", ⟨2, 2, []⟩), ("bell_1", ⟨1, 1, []⟩)] 3 none
      "bell" rfl⟩

/-- C5: `optimize_circuit` on an existing circuit with a level outside
`{0,1,2,3}` returns the validation message and leaves the registry exactly
as it was (no new entry). -/
theorem c5_optimize_invalid_level (pmRun transp3 : Circuit → Except PyExn Circuit)
    (token : String) (reg : Registry) (name : String) (c : Circuit) (level : Int)
    (hfind : regFind? reg name = some c)
    (hlev : (([0, 1, 2, 3] : List Int).contains level) = false) :
    optimize_circuit pmRun transp3 token reg name level =
      (reg, .ok "Optimization level must be 0, 1, 2, or 3") := by
  simp only [optimize_circuit, hfind, hlev]
  simp

/-- Witness for C5 at level 5. -/
theorem c5_optimize_invalid_level_witness :
    (regFind? [("a", ⟨1, 1, []⟩)] "a" = some ⟨1, 1, []⟩ ∧
      (([0, 1, 2, 3] : List Int).contains 5) = false) ∧
    optimize_circuit (fun c => .ok c) (fun c => .ok c) "tok" [("a", ⟨1, 1, []⟩)] "a" 5 =
      ([("a", ⟨1, 1, []⟩)], .ok "Optimization level must be 0, 1, 2, or 3") :=
  ⟨⟨rfl, rfl⟩,
   c5_optimize_invalid_level (fun c => .ok c) (fun c => .ok c) "tok" [("a", ⟨1, 1, []⟩)] "a"
     ⟨1, 1, []⟩ 5 rfl rfl⟩

/-- C10: in `add_gates`, a `measure` record without `classical_bit`
measures the qubit into the classical bit of the same index; with
`classical_bit` present that index is used instead. -/
theorem c10_measure_default_clbit (reg : Registry) (name : String) (c : Circuit)
    (q cb : Nat) (hfind : regFind? reg name = some c)
    (hq : q < c.numQubits) (hqc : q < c.numClbits) (hcb : cb < c.numClbits) :
    add_gates reg name [⟨"measure", [q], none, []⟩] =
      (regSet reg name { c with ops := c.ops ++ [.measure q q] },
       .ok ("Applied gates to '" ++ name ++ "': " ++ ("Measure qubit " ++ Nat.repr q))) ∧
    add_gates reg name [⟨"measure", [q], some cb, []⟩] =
      (regSet reg name { c with ops := c.ops ++ [.measure q cb] },
       .ok ("Applied gates to '" ++ name ++ "': " ++ ("Measure qubit " ++ Nat.repr q))) := by
  have ht : pyLower "measure" = "measure" := rfl
  have hint : ∀ a : String, String.intercalate ", " [a] = a := fun a => rfl
  constructor <;>
    simp [add_gates, hfind, runBasicGates, basicStep, ht, pyIdx, Circuit.applyMeasure,
      hq, hqc, hcb, hint]

/-- Witness for C10 on a 2-qubit, 2-classical-bit circuit. -/
theorem c10_measure_default_clbit_witness :
    (regFind? [("c", ⟨2, 2, []⟩)] "c" = some ⟨2, 2, []⟩ ∧ 0 < 2 ∧ 0 < 2 ∧ 1 < 2) ∧
    (add_gates [("c", ⟨2, 2, []⟩)] "c" [⟨"measure", [0], none, []⟩] =
      (regSet [("c", ⟨2, 2, []⟩)] "c" ⟨2, 2, [.measure 0 0]⟩,
       .ok ("Applied gates to '" ++ "c" ++ "': " ++ ("Measure qubit " ++ Nat.repr 0))) ∧
     add_gates [("c", ⟨2, 2, []⟩)] "c" [⟨"measure", [0], some 1, []⟩] =
      (regSet [("c", ⟨2, 2, []⟩)] "c" ⟨2, 2, [.measure 0 1]⟩,
       .ok ("Applied gates to '" ++ "c" ++ "': " ++ ("Measure qubit " ++ Nat.repr 0)))) :=
  ⟨⟨rfl, by decide, by decide, by decide⟩,
   c10_measure_default_clbit [("c", ⟨2, 2, []⟩)] "c" ⟨2, 2, []⟩ 0 1 rfl (by decide) (by decide)
     (by decide)⟩

/-- C3: every circuit-taking tool, called with a name not in the
registry, returns the "not found" string naming the circuit, raises
nothing, and leaves the registry unchanged — for arbitrary delegate
behaviour. -/
theorem c3_not_found (reg : Registry) (name : String)
    (gates agates : List GateSpec) (shots : Nat) (level : Int)
    (transpileO : Circuit → Except PyExn Circuit)
    (runO : Circuit → Nat → Except PyExn (List (String × Nat)))
    (drawO : Circuit → String)
    (svO : Circuit → Except PyExn SvData)
    (dmO : Circuit → Except PyExn DmData)
    (pmRun transp3 : Circuit → Except PyExn Circuit) (token : String)
    (hfind : regFind? reg name = none) :
    add_gates reg name gates =
      (reg, .ok ("Circuit '" ++ name ++ "' not found. Create it first.")) ∧
    add_advanced_gates reg name agates =
      (reg, .ok ("Circuit '" ++ name ++ "' not found. Create it first.")) ∧
    run_circuit transpileO runO reg name shots =
      (reg, .ok ("Circuit '" ++ name ++ "' not found")) ∧
    get_circuit_info reg name = (reg, .ok ("Circuit '" ++ name ++ "' not found")) ∧
    visualize_circuit drawO reg name = (reg, .ok ("Circuit '" ++ name ++ "' not found")) ∧
    visualize_circuit_mermaid reg name = (reg, .ok ("Circuit '" ++ name ++ "' not found")) ∧
    analyze_statevector svO reg name = (reg, .ok ("Circuit '" ++ name ++ "' not found")) ∧
    compute_density_matrix dmO reg name = (reg, .ok ("Circuit '" ++ name ++ "' not found")) ∧
    optimize_circuit pmRun transp3 token reg name level =
      (reg, .ok ("Circuit '" ++ name ++ "' not found")) := by
  refine ⟨?_, ?_, ?_, ?_, ?_, ?_, ?_, ?_, ?_⟩ <;>
    simp [add_gates, add_advanced_gates, run_circuit, get_circuit_info, visualize_circuit,
      visualize_circuit_mermaid, analyze_statevector, compute_density_matrix,
      optimize_circuit, hfind]

/-- Witness for C3 on the empty registry and concrete delegates. -/
theorem c3_not_found_witness :
    regFind? ([] : Registry) "q" = none ∧
    (add_gates [] "q" [] = ([], .ok ("Circuit '" ++ "q" ++ "' not found. Create it first.")) ∧
     add_advanced_gates [] "q" [] =
       ([], .ok ("Circuit '" ++ "q" ++ "' not found. Create it first.")) ∧
     run_circuit (fun c => .ok c) (fun _ _ => .ok []) [] "q" 1000 =
       ([], .ok ("Circuit '" ++ "q" ++ "' not found")) ∧
     get_circuit_info [] "q" = ([], .ok ("Circuit '" ++ "q" ++ "' not found")) ∧
     visualize_circuit (fun _ => "") [] "q" = ([], .ok ("Circuit '" ++ "q" ++ "' not found")) ∧
     visualize_circuit_mermaid [] "q" = ([], .ok ("Circuit '" ++ "q" ++ "' not found")) ∧
     analyze_statevector (fun _ => .error (.generalError "boom")) [] "q" =
       ([], .ok ("Circuit '" ++ "q" ++ "' not found")) ∧
     compute_density_matrix (fun _ => .error (.generalError "boom")) [] "q" =
       ([], .ok ("Circuit '" ++ "q" ++ "' not found")) ∧
     optimize_circuit (fun c => .ok c) (fun c => .ok c) "tok" [] "q" 2 =
       ([], .ok ("Circuit '" ++ "q" ++ "' not found"))) :=
  ⟨rfl,
   c3_not_found [] "q" [] [] 1000 2 (fun c => .ok c) (fun _ _ => .ok []) (fun _ => "")
     (fun _ => .error (.generalError "boom")) (fun _ => .error (.generalError "boom"))
     (fun c => .ok c) (fun c => .ok c) "tok" rfl⟩

/-! ## Gate-loop lemmas -/

theorem apply1_ops {c : Circuit} {q : Nat} {op : Op} {c' : Circuit}
    (h : c.apply1 q op = .ok c') : c'.ops = c.ops ++ [op] := by
  unfold Circuit.apply1 at h
  split at h
  · cases h; rfl
  · cases h

theorem apply2_ops {c : Circuit} {q1 q2 : Nat} {op : Op} {c' : Circuit}
    (h : c.apply2 q1 q2 op = .ok c') : c'.ops = c.ops ++ [op] := by
  unfold Circuit.apply2 at h
  split at h
  · cases h; rfl
  · cases h

theorem applyMeasure_ops {c : Circuit} {q cb : Nat} {c' : Circuit}
    (h : c.applyMeasure q cb = .ok c') : c'.ops = c.ops ++ [.measure q cb] := by
  unfold Circuit.applyMeasure at h
  split at h
  · cases h; rfl
  · cases h

theorem basicStep_ops_extend {c : Circuit} {g : GateSpec} {c' : Circuit} {d : String}
    (h : basicStep c g = .ok c' d) : ∃ ext, c'.ops = c.ops ++ ext := by
  unfold basicStep at h
  dsimp only at h
  split_ifs at h <;> (repeat' split at h) <;>
    first
      | (cases h
         rename_i heq
         first
           | exact ⟨_, apply1_ops heq⟩
           | exact ⟨_, apply2_ops heq⟩
           | exact ⟨_, applyMeasure_ops heq⟩)
      | (cases h
         exact ⟨[Op.barrier (List.range c.numQubits)] ++
            (List.range c.numQubits).map (fun i => Op.measure i (c.numClbits + i)),
            by simp [Circuit.measureAll]⟩)
      | cases h

theorem runBasicGates_done_extends :
    ∀ gs c ds c' ds', runBasicGates c ds gs = .done c' ds' → ∃ ext, c'.ops = c.ops ++ ext := by
  intro gs
  induction gs with
  | nil =>
    intro c ds c' ds' h
    rw [runBasicGates] at h
    cases h
    exact ⟨[], by simp⟩
  | cons g rest ih =>
    intro c ds c' ds' h
    rw [runBasicGates] at h
    cases hs : basicStep c g with
    | ok c2 d =>
      rw [hs] at h
      obtain ⟨ext2, h2⟩ := ih c2 (ds ++ [d]) c' ds' h
      obtain ⟨ext1, h1⟩ := basicStep_ops_extend hs
      exact ⟨ext1 ++ ext2, by rw [h2, h1, List.append_assoc]⟩
    | unsupported t2 => rw [hs] at h; cases h
    | exn e2 => rw [hs] at h; cases h

theorem runBasicGates_append (c : Circuit) (ds : List String) (pre gs : List GateSpec) :
    runBasicGates c ds (pre ++ gs) =
      match runBasicGates c ds pre with
      | .done c' ds' => runBasicGates c' ds' gs
      | .unsupported c' ds' t => .unsupported c' ds' t
      | .raised c' e => .raised c' e := by
  induction pre generalizing c ds with
  | nil => simp [runBasicGates]
  | cons g rest ih =>
    simp only [List.cons_append, runBasicGates]
    cases basicStep c g with
    | ok c2 d => exact ih c2 (ds ++ [d])
    | unsupported t => rfl
    | exn e => rfl

/-- The basic gate kinds `add_gates` recognises. -/
def basicKinds : List String := ["h", "x", "y", "z", "cx", "measure", "measure_all"]

theorem basicStep_unsupported (c : Circuit) (g : GateSpec)
    (h : pyLower g.type ∉ basicKinds) :
    basicStep c g = .unsupported (pyLower g.type) := by
  simp only [basicKinds, List.mem_cons, List.not_mem_nil, or_false, not_or] at h
  obtain ⟨h1, h2, h3, h4, h5, h6, h7⟩ := h
  unfold basicStep
  dsimp only
  rw [if_neg h1, if_neg h2, if_neg h3, if_neg h4, if_neg h5, if_neg h6, if_neg h7]

theorem runAdvancedGates_append (c : Circuit) (ds : List String) (pre gs : List GateSpec) :
    runAdvancedGates c ds (pre ++ gs) =
      match runAdvancedGates c ds pre with
      | .done c' ds' => runAdvancedGates c' ds' gs
      | .unsupported c' ds' t => .unsupported c' ds' t
      | .raised c' e => .raised c' e := by
  induction pre generalizing c ds with
  | nil => simp [runAdvancedGates]
  | cons g rest ih =>
    simp only [List.cons_append, runAdvancedGates]
    cases advancedStep c g with
    | ok c2 d => exact ih c2 (ds ++ [d])
    | unsupported t => rfl
    | exn e => rfl

/-- The advanced gate kinds `add_advanced_gates` recognises. -/
def advancedKinds : List String :=
  ["rx", "ry", "rz", "rxx", "ryy", "rzz", "u", "swap", "s", "sdg", "t", "tdg"]

theorem advancedStep_unsupported (c : Circuit) (g : GateSpec)
    (h : pyLower g.type ∉ advancedKinds) :
    advancedStep c g = .unsupported (pyLower g.type) := by
  simp only [advancedKinds, List.mem_cons, List.not_mem_nil, or_false, not_or] at h
  obtain ⟨h1, h2, h3, h4, h5, h6, h7, h8, h9, h10, h11, h12⟩ := h
  unfold advancedStep
  dsimp only
  rw [if_neg h1, if_neg h2, if_neg h3, if_neg h4, if_neg h5, if_neg h6, if_neg h7, if_neg h8,
    if_neg h9, if_neg h10, if_neg h11, if_neg h12]

theorem advGate1_ops_extend {c : Circuit} {g : GateSpec} {mk : Nat → Op}
    {desc : Nat → String} {c' : Circuit} {d : String}
    (h : advGate1 c g mk desc = .ok c' d) : ∃ ext, c'.ops = c.ops ++ ext := by
  unfold advGate1 at h
  split at h
  · cases h
  · split at h
    · cases h
    · cases h
      rename_i heq
      exact ⟨_, apply1_ops heq⟩

theorem advGate2_ops_extend {c : Circuit} {g : GateSpec} {mk : Nat → Nat → Op}
    {desc : Nat → Nat → String} {c' : Circuit} {d : String}
    (h : advGate2 c g mk desc = .ok c' d) : ∃ ext, c'.ops = c.ops ++ ext := by
  unfold advGate2 at h
  split at h
  · cases h
  · split at h
    · cases h
    · split at h
      · cases h
      · cases h
        rename_i heq
        exact ⟨_, apply2_ops heq⟩

theorem advancedStep_ops_extend {c : Circuit} {g : GateSpec} {c' : Circuit} {d : String}
    (h : advancedStep c g = .ok c' d) : ∃ ext, c'.ops = c.ops ++ ext := by
  unfold advancedStep at h
  dsimp only at h
  by_cases e1 : pyLower g.type = "rx"
  · rw [if_pos e1] at h; exact advGate1_ops_extend h
  rw [if_neg e1] at h
  by_cases e2 : pyLower g.type = "ry"
  · rw [if_pos e2] at h; exact advGate1_ops_extend h
  rw [if_neg e2] at h
  by_cases e3 : pyLower g.type = "rz"
  · rw [if_pos e3] at h; exact advGate1_ops_extend h
  rw [if_neg e3] at h
  by_cases e4 : pyLower g.type = "rxx"
  · rw [if_pos e4] at h; exact advGate2_ops_extend h
  rw [if_neg e4] at h
  by_cases e5 : pyLower g.type = "ryy"
  · rw [if_pos e5] at h; exact advGate2_ops_extend h
  rw [if_neg e5] at h
  by_cases e6 : pyLower g.type = "rzz"
  · rw [if_pos e6] at h; exact advGate2_ops_extend h
  rw [if_neg e6] at h
  by_cases e7 : pyLower g.type = "u"
  · rw [if_pos e7] at h; exact advGate1_ops_extend h
  rw [if_neg e7] at h
  by_cases e8 : pyLower g.type = "swap"
  · rw [if_pos e8] at h; exact advGate2_ops_extend h
  rw [if_neg e8] at h
  by_cases e9 : pyLower g.type = "s"
  · rw [if_pos e9] at h; exact advGate1_ops_extend h
  rw [if_neg e9] at h
  by_cases e10 : pyLower g.type = "sdg"
  · rw [if_pos e10] at h; exact advGate1_ops_extend h
  rw [if_neg e10] at h
  by_cases e11 : pyLower g.type = "t"
  · rw [if_pos e11] at h; exact advGate1_ops_extend h
  rw [if_neg e11] at h
  by_cases e12 : pyLower g.type = "tdg"
  · rw [if_pos e12] at h; exact advGate1_ops_extend h
  rw [if_neg e12] at h
  cases h

theorem runAdvancedGates_done_extends :
    ∀ gs c ds c' ds', runAdvancedGates c ds gs = .done c' ds' → ∃ ext, c'.ops = c.ops ++ ext := by
  intro gs
  induction gs with
  | nil =>
    intro c ds c' ds' h
    rw [runAdvancedGates] at h
    cases h
    exact ⟨[], by simp⟩
  | cons g rest ih =>
    intro c ds c' ds' h
    rw [runAdvancedGates] at h
    cases hs : advancedStep c g with
    | ok c2 d =>
      rw [hs] at h
      obtain ⟨ext2, h2⟩ := ih c2 (ds ++ [d]) c' ds' h
      obtain ⟨ext1, h1⟩ := advancedStep_ops_extend hs
      exact ⟨ext1 ++ ext2, by rw [h2, h1, List.append_assoc]⟩
    | unsupported t2 => rw [hs] at h; cases h
    | exn e2 => rw [hs] at h; cases h

theorem runBasicGates_cons_unsupported (c : Circuit) (ds : List String) (g : GateSpec)
    (rest : List GateSpec) (h : pyLower g.type ∉ basicKinds) :
    runBasicGates c ds (g :: rest) = .unsupported c ds (pyLower g.type) := by
  rw [runBasicGates, basicStep_unsupported c g h]

theorem runAdvancedGates_cons_unsupported (c : Circuit) (ds : List String) (g : GateSpec)
    (rest : List GateSpec) (h : pyLower g.type ∉ advancedKinds) :
    runAdvancedGates c ds (g :: rest) = .unsupported c ds (pyLower g.type) := by
  rw [runAdvancedGates, advancedStep_unsupported c g h]

/-- C4: `add_gates` and `add_advanced_gates` stop at the first
unrecognised gate kind and report it; every gate of the prefix before the
failing record stays applied on the registered circuit (no rollback), and
nothing at or after the failing position is applied. -/
theorem c4_unsupported_stops_no_rollback (reg : Registry) (name : String)
    (c cBasic cAdv : Circuit) (ds dsa : List String)
    (pre rest prea resta : List GateSpec) (bad bada : GateSpec)
    (hfind : regFind? reg name = some c)
    (hpre : runBasicGates c [] pre = .done cBasic ds)
    (hbad : pyLower bad.type ∉ basicKinds)
    (hprea : runAdvancedGates c [] prea = .done cAdv dsa)
    (hbada : pyLower bada.type ∉ advancedKinds) :
    add_gates reg name (pre ++ bad :: rest) =
      (regSet reg name cBasic, .ok ("Unsupported gate type: " ++ pyLower bad.type)) ∧
    (∃ ext, cBasic.ops = c.ops ++ ext) ∧
    add_advanced_gates reg name (prea ++ bada :: resta) =
      (regSet reg name cAdv, .ok ("Unsupported advanced gate type: " ++ pyLower bada.type)) ∧
    (∃ ext, cAdv.ops = c.ops ++ ext) := by
  refine ⟨?_, runBasicGates_done_extends _ _ _ _ _ hpre, ?_,
    runAdvancedGates_done_extends _ _ _ _ _ hprea⟩
  · have hrun : runBasicGates c [] (pre ++ bad :: rest) =
        .unsupported cBasic ds (pyLower bad.type) := by
      rw [runBasicGates_append, hpre]
      exact runBasicGates_cons_unsupported cBasic ds bad rest hbad
    simp only [add_gates, hfind, hrun]
  · have hrun : runAdvancedGates c [] (prea ++ bada :: resta) =
        .unsupported cAdv dsa (pyLower bada.type) := by
      rw [runAdvancedGates_append, hprea]
      exact runAdvancedGates_cons_unsupported cAdv dsa bada resta hbada
    simp only [add_advanced_gates, hfind, hrun]

/-- Witness for C4: a batch `[x 0, foo, z 1]` on a registered 2-qubit
circuit stops at `foo` with the X gate kept; similarly for the advanced
batch `[s 0, bar]`. -/
theorem c4_unsupported_stops_no_rollback_witness :
    (regFind? [("c", ⟨2, 2, []⟩)] "c" = some ⟨2, 2, []⟩ ∧
     runBasicGates ⟨2, 2, []⟩ [] [⟨"x", [0], none, []⟩] =
       .done ⟨2, 2, [.x 0]⟩ ["X gate on qubit 0"] ∧
     pyLower "foo" ∉ basicKinds ∧
     runAdvancedGates ⟨2, 2, []⟩ [] [⟨"s", [0], none, []⟩] =
       .done ⟨2, 2, [.s 0]⟩ ["S gate on qubit 0"] ∧
     pyLower "bar" ∉ advancedKinds) ∧
    (add_gates [("c", ⟨2, 2, []⟩)] "c"
        ([⟨"x", [0], none, []⟩] ++ ⟨"foo", [0], none, []⟩ :: [⟨"z", [1], none, []⟩]) =
      (regSet [("c", ⟨2, 2, []⟩)] "c" ⟨2, 2, [.x 0]⟩,
       .ok ("Unsupported gate type: " ++ pyLower "foo")) ∧
     (∃ ext, (⟨2, 2, [.x 0]⟩ : Circuit).ops = (⟨2, 2, []⟩ : Circuit).ops ++ ext) ∧
     add_advanced_gates [("c", ⟨2, 2, []⟩)] "c"
        ([⟨"s", [0], none, []⟩] ++ ⟨"bar", [0], none, []⟩ :: []) =
      (regSet [("c", ⟨2, 2, []⟩)] "c" ⟨2, 2, [.s 0]⟩,
       .ok ("Unsupported advanced gate type: " ++ pyLower "bar")) ∧
     (∃ ext, (⟨2, 2, [.s 0]⟩ : Circuit).ops = (⟨2, 2, []⟩ : Circuit).ops ++ ext)) :=
  ⟨⟨rfl, rfl, by decide, rfl, by decide⟩,
   c4_unsupported_stops_no_rollback [("c", ⟨2, 2, []⟩)] "c" ⟨2, 2, []⟩ ⟨2, 2, [.x 0]⟩
     ⟨2, 2, [.s 0]⟩ ["X gate on qubit 0"] ["S gate on qubit 0"]
     [⟨"x", [0], none, []⟩] [⟨"z", [1], none, []⟩] [⟨"s", [0], none, []⟩] []
     ⟨"foo", [0], none, []⟩ ⟨"bar", [0], none, []⟩ rfl rfl (by decide) rfl (by decide)⟩

/-- C1 counterexample: `add_gates` on an existing circuit, given a gate
record whose qubit list is missing (empty), raises an uncaught
`IndexError` — the failure is not converted into a returned string, so
the claimed "no tool lets an exception cross the tool boundary" is false
for `add_gates`. -/
theorem c1_counterexample :
    (add_gates [("c", ⟨1, 1, []⟩)] "c" [⟨"h", [], none, []⟩]).2 =
      Except.error (PyExn.indexError "list index out of range") := rfl

/-- C1 amended: only the tools with a `try`/`except` body
(`analyze_statevector`, `compute_density_matrix`, `optimize_circuit`,
`add_advanced_gates`) convert delegate failures into descriptive strings
naming the circuit and the cause; `run_circuit` and `add_gates` have no
handler, so delegate failures propagate out of the tool. -/
theorem c1_amended_handler_boundary (reg : Registry) (name : String) (c : Circuit)
    (e : PyExn) (svO : Circuit → Except PyExn SvData) (dmO : Circuit → Except PyExn DmData)
    (pmRun transp3 : Circuit → Except PyExn Circuit) (token : String)
    (transpileO : Circuit → Except PyExn Circuit)
    (runO : Circuit → Nat → Except PyExn (List (String × Nat)))
    (shots : Nat) (hfind : regFind? reg name = some c) :
    (svO (removeFinalMeasurements c) = .error e →
      (analyze_statevector svO reg name).2 =
        .ok ("Error analyzing statevector for '" ++ name ++ "': " ++ e.msg)) ∧
    (dmO (removeFinalMeasurements c) = .error e →
      (compute_density_matrix dmO reg name).2 =
        .ok ("Error computing density matrix for '" ++ name ++ "': " ++ e.msg)) ∧
    (pmRun c = .error e →
      (optimize_circuit pmRun transp3 token reg name 1).2 =
        .ok ("Error optimizing circuit '" ++ name ++ "': " ++ e.msg)) ∧
    (∀ gates c' e', runAdvancedGates c [] gates = .raised c' e' →
      (add_advanced_gates reg name gates).2 =
        .ok ("Error adding advanced gates to '" ++ name ++ "': " ++ e'.msg)) ∧
    (transpileO c = .error e →
      (run_circuit transpileO runO reg name shots).2 = .error e) ∧
    (∀ gates c' e', runBasicGates c [] gates = .raised c' e' →
      (add_gates reg name gates).2 = Except.error e') := by
  refine ⟨?_, ?_, ?_, ?_, ?_, ?_⟩
  · intro hsv
    simp [analyze_statevector, hfind, hsv]
  · intro hdm
    simp [compute_density_matrix, hfind, hdm]
  · intro hpm
    have hsel : optDelegate pmRun transp3 1 c = .error e := by
      simp [optDelegate, hpm]
    simp [optimize_circuit, hfind, hsel]
  · intro gates c' e' hrun
    simp [add_advanced_gates, hfind, hrun]
  · intro htr
    simp [run_circuit, hfind, htr]
  · intro gates c' e' hrun
    simp [add_gates, hfind, hrun]

/-- Witness for C1's amended statement, with delegates that fail with a
concrete exception. -/
theorem c1_amended_handler_boundary_witness :
    regFind? [("c", ⟨1, 1, []⟩)] "c" = some ⟨1, 1, []⟩ ∧
    (((fun _ : Circuit => (.error (.generalError "boom") : Except PyExn SvData))
          (removeFinalMeasurements ⟨1, 1, []⟩) = .error (.generalError "boom") →
      (analyze_statevector (fun _ => .error (.generalError "boom")) [("c", ⟨1, 1, []⟩)] "c").2 =
        .ok ("Error analyzing statevector for '" ++ "c" ++ "': " ++
          (PyExn.generalError "boom").msg)) ∧
     (((fun _ : Circuit => (.error (.generalError "boom") : Except PyExn DmData))
          (removeFinalMeasurements ⟨1, 1, []⟩) = .error (.generalError "boom") →
      (compute_density_matrix (fun _ => .error (.generalError "boom")) [("c", ⟨1, 1, []⟩)] "c").2 =
        .ok ("Error computing density matrix for '" ++ "c" ++ "': " ++
          (PyExn.generalError "boom").msg))) ∧
     (((fun _ : Circuit => (.error (.generalError "boom") : Except PyExn Circuit)) ⟨1, 1, []⟩ =
          .error (.generalError "boom") →
      (optimize_circuit (fun _ => .error (.generalError "boom")) (fun c => .ok c) "tok"
          [("c", ⟨1, 1, []⟩)] "c" 1).2 =
        .ok ("Error optimizing circuit '" ++ "c" ++ "': " ++ (PyExn.generalError "boom").msg))) ∧
     (∀ gates c' e', runAdvancedGates ⟨1, 1, []⟩ [] gates = .raised c' e' →
      (add_advanced_gates [("c", ⟨1, 1, []⟩)] "c" gates).2 =
        .ok ("Error adding advanced gates to '" ++ "c" ++ "': " ++ e'.msg)) ∧
     (((fun _ : Circuit => (.error (.generalError "boom") : Except PyExn Circuit)) ⟨1, 1, []⟩ =
          .error (.generalError "boom") →
      (run_circuit (fun _ => .error (.generalError "boom")) (fun _ _ => .ok [])
          [("c", ⟨1, 1, []⟩)] "c" 1000).2 = .error (.generalError "boom"))) ∧
     (∀ gates c' e', runBasicGates ⟨1, 1, []⟩ [] gates = .raised c' e' →
      (add_gates [("c", ⟨1, 1, []⟩)] "c" gates).2 = Except.error e')) :=
  ⟨rfl,
   c1_amended_handler_boundary [("c", ⟨1, 1, []⟩)] "c" ⟨1, 1, []⟩ (.generalError "boom")
     (fun _ => .error (.generalError "boom")) (fun _ => .error (.generalError "boom"))
     (fun _ => .error (.generalError "boom")) (fun c => .ok c) "tok"
     (fun _ => .error (.generalError "boom")) (fun _ _ => .ok []) 1000 rfl⟩

theorem optName_ne (name : String) (level : Int) (token : String) :
    name ≠ name ++ "_opt" ++ Int.repr level ++ "_" ++ token := by
  intro h
  have hlen := congrArg String.length h
  simp only [String.length_append] at hlen
  have h4 : ("_opt" : String).length = 4 := rfl
  have h1 : ("_" : String).length = 1 := rfl
  omega

/-- C6: the derivative tools never modify the circuit stored under the
given name: `optimize_circuit` stores its result under a new derived name
(original name, level marker, uniqueness token), leaving the original
entry untouched, and `analyze_statevector` / `compute_density_matrix`
leave the whole registry unchanged — measurements are stripped only on a
working copy. -/
theorem c6_derivative_tools_frame (pmRun transp3 : Circuit → Except PyExn Circuit)
    (token : String) (reg : Registry) (name : String) (c oc : Circuit) (level : Int)
    (svO : Circuit → Except PyExn SvData) (dmO : Circuit → Except PyExn DmData)
    (hfind : regFind? reg name = some c)
    (hlev : (([0, 1, 2, 3] : List Int).contains level) = true)
    (hopt : optDelegate pmRun transp3 level c = .ok oc) :
    (optimize_circuit pmRun transp3 token reg name level).1 =
      regSet reg (name ++ "_opt" ++ Int.repr level ++ "_" ++ token) oc ∧
    regFind? (optimize_circuit pmRun transp3 token reg name level).1 name = some c ∧
    regFind? (regSet reg (name ++ "_opt" ++ Int.repr level ++ "_" ++ token) oc)
      (name ++ "_opt" ++ Int.repr level ++ "_" ++ token) = some oc ∧
    (analyze_statevector svO reg name).1 = reg ∧
    (compute_density_matrix dmO reg name).1 = reg := by
  have hreg : (optimize_circuit pmRun transp3 token reg name level).1 =
      regSet reg (name ++ "_opt" ++ Int.repr level ++ "_" ++ token) oc := by
    simp only [optimize_circuit, hfind, hlev, hopt]
    simp
  refine ⟨hreg, ?_, regFind?_regSet_self _ _ _, ?_, ?_⟩
  · rw [hreg, regFind?_regSet_ne reg oc (optName_ne name level token)]
    exact hfind
  · cases hsv : svO (removeFinalMeasurements c) <;> simp [analyze_statevector, hfind, hsv]
  · cases hdm : dmO (removeFinalMeasurements c) <;> simp [compute_density_matrix, hfind, hdm]

/-- Witness for C6 at level 0 on a one-gate circuit. -/
theorem c6_derivative_tools_frame_witness :
    (regFind? [("a", ⟨1, 0, [.h 0]⟩)] "a" = some ⟨1, 0, [.h 0]⟩ ∧
     (([0, 1, 2, 3] : List Int).contains 0) = true ∧
     optDelegate (fun c => .ok c) (fun c => .ok c) 0 ⟨1, 0, [.h 0]⟩ = .ok ⟨1, 0, [.h 0]⟩) ∧
    ((optimize_circuit (fun c => .ok c) (fun c => .ok c) "t" [("a", ⟨1, 0, [.h 0]⟩)] "a" 0).1 =
       regSet [("a", ⟨1, 0, [.h 0]⟩)] ("a" ++ "_opt" ++ Int.repr 0 ++ "_" ++ "t") ⟨1, 0, [.h 0]⟩ ∧
     regFind? (optimize_circuit (fun c => .ok c) (fun c => .ok c) "t"
         [("a", ⟨1, 0, [.h 0]⟩)] "a" 0).1 "a" = some ⟨1, 0, [.h 0]⟩ ∧
     regFind? (regSet [("a", ⟨1, 0, [.h 0]⟩)] ("a" ++ "_opt" ++ Int.repr 0 ++ "_" ++ "t")
         ⟨1, 0, [.h 0]⟩) ("a" ++ "_opt" ++ Int.repr 0 ++ "_" ++ "t") = some ⟨1, 0, [.h 0]⟩ ∧
     (analyze_statevector (fun _ => .error (.generalError "boom")) [("a", ⟨1, 0, [.h 0]⟩)] "a").1 =
       [("a", ⟨1, 0, [.h 0]⟩)] ∧
     (compute_density_matrix (fun _ => .error (.generalError "boom"))
         [("a", ⟨1, 0, [.h 0]⟩)] "a").1 = [("a", ⟨1, 0, [.h 0]⟩)]) :=
  ⟨⟨rfl, rfl, rfl⟩,
   c6_derivative_tools_frame (fun c => .ok c) (fun c => .ok c) "t" [("a", ⟨1, 0, [.h 0]⟩)] "a"
     ⟨1, 0, [.h 0]⟩ ⟨1, 0, [.h 0]⟩ 0 (fun _ => .error (.generalError "boom"))
     (fun _ => .error (.generalError "boom")) rfl rfl rfl⟩

/-- The spec's formula for the reported improvement percentage: size
reduction over original size times 100, rounded to two decimals, and 0
when the original size is 0 (the division is guarded away). -/
def improvementSpec (orig opt : Nat) : ℚ :=
  if 0 < orig then pyRound2 (((orig : ℚ) - (opt : ℚ)) / (orig : ℚ) * 100) else 0

/-- C7: every successful `optimize_circuit` call reports
`improvement_percentage = improvementSpec originalSize optimizedSize`;
in particular the percentage is 0 when the original size is 0 and the
division only happens for a positive original size. -/
theorem c7_improvement_percentage (pmRun transp3 : Circuit → Except PyExn Circuit)
    (token : String) (reg : Registry) (name : String) (c oc : Circuit) (level : Int)
    (hfind : regFind? reg name = some c)
    (hlev : (([0, 1, 2, 3] : List Int).contains level) = true)
    (hopt : optDelegate pmRun transp3 level c = .ok oc) :
    (optimize_circuit pmRun transp3 token reg name level).2 =
      .ok (Json.dumps (.obj (optimizeResult name
        (name ++ "_opt" ++ Int.repr level ++ "_" ++ token) level c oc))) ∧
    (optimizeResult name (name ++ "_opt" ++ Int.repr level ++ "_" ++ token) level c oc).lookup
        "improvement_percentage" = some (.num (improvementSpec c.size oc.size)) ∧
    (c.size = 0 → improvementSpec c.size oc.size = 0) := by
  refine ⟨?_, ?_, ?_⟩
  · simp only [optimize_circuit, hfind, hlev, hopt]
    simp
  · rfl
  · intro h0
    simp [improvementSpec, h0]

/-- Witness for C7 at level 0 on a one-gate circuit (size 1). -/
theorem c7_improvement_percentage_witness :
    (regFind? [("a", ⟨1, 0, [.h 0]⟩)] "a" = some ⟨1, 0, [.h 0]⟩ ∧
     (([0, 1, 2, 3] : List Int).contains 0) = true ∧
     optDelegate (fun c => .ok c) (fun c => .ok c) 0 ⟨1, 0, [.h 0]⟩ = .ok ⟨1, 0, [.h 0]⟩) ∧
    ((optimize_circuit (fun c => .ok c) (fun c => .ok c) "t" [("a", ⟨1, 0, [.h 0]⟩)] "a" 0).2 =
       .ok (Json.dumps (.obj (optimizeResult "a" ("a" ++ "_opt" ++ Int.repr 0 ++ "_" ++ "t") 0
         ⟨1, 0, [.h 0]⟩ ⟨1, 0, [.h 0]⟩))) ∧
     (optimizeResult "a" ("a" ++ "_opt" ++ Int.repr 0 ++ "_" ++ "t") 0 ⟨1, 0, [.h 0]⟩
         ⟨1, 0, [.h 0]⟩).lookup "improvement_percentage" =
       some (.num (improvementSpec (Circuit.size ⟨1, 0, [.h 0]⟩) (Circuit.size ⟨1, 0, [.h 0]⟩))) ∧
     (Circuit.size ⟨1, 0, [.h 0]⟩ = 0 →
       improvementSpec (Circuit.size ⟨1, 0, [.h 0]⟩) (Circuit.size ⟨1, 0, [.h 0]⟩) = 0)) :=
  ⟨⟨rfl, rfl, rfl⟩,
   c7_improvement_percentage (fun c => .ok c) (fun c => .ok c) "t" [("a", ⟨1, 0, [.h 0]⟩)] "a"
     ⟨1, 0, [.h 0]⟩ ⟨1, 0, [.h 0]⟩ 0 rfl rfl rfl⟩

theorem dumps_obj_head (fs : List (String × Json)) :
    (Json.dumps (.obj fs)).data.head? = some '\x7b' := by
  cases fs with
  | nil => rfl
  | cons f rest => rfl

/-- C9 counterexample: on the empty registry `list_circuits` returns the
plain string `"No circuits created yet"`, which is not `json.dumps` of
any JSON object — so the claim's "for every registry state, including the
empty registry, a JSON object is returned" fails at the empty registry. -/
theorem c9_counterexample :
    list_circuits ([] : Registry) = ([], .ok "No circuits created yet") ∧
    ∀ fs : List (String × Json), Json.dumps (.obj fs) ≠ "No circuits created yet" := by
  refine ⟨rfl, ?_⟩
  intro fs h
  have h1 := dumps_obj_head fs
  rw [h] at h1
  exact absurd h1 (by decide)

/-- C9 amended: for every NON-empty registry, `list_circuits` leaves the
registry unchanged and returns the JSON dump of an object whose keys are
exactly the registered names in registry order, each mapped to its
qubit-count / classical-bit-count / gate-count summary. -/
theorem c9_list_circuits_nonempty (reg : Registry) (hne : reg ≠ []) :
    ∃ entries : List (String × Json),
      list_circuits reg = (reg, .ok (Json.dumps (.obj entries))) ∧
      entries.map Prod.fst = reg.map Prod.fst ∧
      ∀ p ∈ reg,
        (p.1, Json.obj
          [("qubits", .num p.2.numQubits),
           ("classical_bits", .num p.2.numClbits),
           ("gates", .num p.2.size)]) ∈ entries := by
  have hemp : reg.isEmpty = false := by
    cases reg with
    | nil => exact absurd rfl hne
    | cons p rest => rfl
  refine ⟨reg.map (fun p =>
    (p.1, Json.obj
      [("qubits", .num p.2.numQubits),
       ("classical_bits", .num p.2.numClbits),
       ("gates", .num p.2.size)])), ?_, ?_, ?_⟩
  · simp [list_circuits, hemp]
  · rw [List.map_map]
    rfl
  · intro p hp
    exact List.mem_map_of_mem _ hp

/-- Witness for C9's amended statement on a one-entry registry. -/
theorem c9_list_circuits_nonempty_witness :
    ([("a", ⟨1, 2, [.h 0]⟩)] : Registry) ≠ [] ∧
    ∃ entries : List (String × Json),
      list_circuits [("a", ⟨1, 2, [.h 0]⟩)] =
        ([("a", ⟨1, 2, [.h 0]⟩)], .ok (Json.dumps (.obj entries))) ∧
      entries.map Prod.fst = ([("a", ⟨1, 2, [.h 0]⟩)] : Registry).map Prod.fst ∧
      ∀ p ∈ ([("a", ⟨1, 2, [.h 0]⟩)] : Registry),
        (p.1, Json.obj
          [("qubits", .num p.2.numQubits),
           ("classical_bits", .num p.2.numClbits),
           ("gates", .num p.2.size)]) ∈ entries :=
  ⟨by simp, c9_list_circuits_nonempty [("a", ⟨1, 2, [.h 0]⟩)] (by simp)⟩

/-! ## The Mermaid walk: per-qubit chaining -/

/-- The node identifier the emitter assigns to the instruction processed
at `gate_counter = gc` (H/X/Y/Z/rotation/SWAP/generic ids are the
upper-cased gate name; CX/CNOT and MEASURE get `CNOT`/`M`). -/
def nodeId (gc : Nat) (op : Op) : String :=
  let g := pyUpper op.qiskitName
  if g = "CX" ∨ g = "CNOT" then "CNOT" ++ Nat.repr gc
  else if g = "MEASURE" then "M" ++ Nat.repr gc
  else g ++ Nat.repr gc

/-- The "most recently emitted node touching qubit wire `i`" after the
walk has processed `ops` with gate counters `gc+1, gc+2, …`: the node of
the last instruction in `ops` touching `i`, or the incoming per-wire
state `cur i` when none touches it. -/
def lastTouchingFrom (cur : Nat → String) (gc : Nat) (ops : List Op) (i : Nat) : String :=
  match (List.enumFrom (gc + 1) ops).reverse.find? (fun p => p.2.qubits.contains i) with
  | some p => nodeId p.1 p.2
  | none => cur i

/-- Routing well-formedness for the Mermaid walk: a named rotation or
generic instruction reaches its intended dispatch branch, and the
branches that loop over their qubit list have duplicate-free lists.
Every instruction the tools construct satisfies this. -/
def Op.mermaidWf : Op → Prop
  | .rot n _ qs =>
      (n = "rx" ∨ n = "ry" ∨ n = "rz" ∨ n = "rxx" ∨ n = "ryy" ∨ n = "rzz") ∧ qs.Nodup
  | .barrier qs => qs.Nodup
  | .generic n qs =>
      (pyUpper n ≠ "H" ∧ pyUpper n ≠ "X" ∧ pyUpper n ≠ "Y" ∧ pyUpper n ≠ "Z" ∧
       pyUpper n ≠ "CX" ∧ pyUpper n ≠ "CNOT" ∧ pyUpper n ≠ "MEASURE" ∧
       pyStarts (pyUpper n) "R" = false ∧ pyUpper n ≠ "SWAP") ∧ qs.Nodup
  | _ => True

theorem wireLoop_state (node : String) :
    ∀ qs (cur : Nat → String) (i : Nat),
      (wireLoop cur node qs).1 i = if qs.contains i then node else cur i := by
  intro qs
  induction qs with
  | nil => intro cur i; simp [wireLoop]
  | cons q rest ih =>
    intro cur i
    show (wireLoop (fun j => if j = q then node else cur j) node rest).1 i = _
    rw [ih]
    by_cases hq : i = q <;> by_cases hr : i ∈ rest <;>
      simp [List.contains_cons, hq, hr]

theorem wireLoop_edges (node : String) :
    ∀ qs (cur : Nat → String), qs.Nodup →
      ∀ i ∈ qs, ("    " ++ cur i ++ " --> " ++ node) ∈ (wireLoop cur node qs).2 := by
  intro qs
  induction qs with
  | nil => intro cur _ i hi; cases hi
  | cons q rest ih =>
    intro cur hnd i hi
    simp only [wireLoop]
    rcases List.mem_cons.mp hi with heq | hmem
    · subst heq
      exact List.mem_cons_self _ _
    · have hne : i ≠ q := fun hh => (List.nodup_cons.mp hnd).1 (hh ▸ hmem)
      have hrec := ih (fun j => if j = q then node else cur j) (List.nodup_cons.mp hnd).2 i hmem
      dsimp only at hrec
      rw [if_neg hne] at hrec
      exact List.mem_cons_of_mem _ hrec

theorem nodeId_generic (gc : Nat) (n : String) (qs : List Nat)
    (h5 : pyUpper n ≠ "CX") (h6 : pyUpper n ≠ "CNOT") (h7 : pyUpper n ≠ "MEASURE") :
    nodeId gc (.generic n qs) = pyUpper n ++ Nat.repr gc := by
  unfold nodeId
  dsimp only [Op.qiskitName]
  rw [if_neg (by simp [h5, h6]), if_neg h7]

theorem mermaidStep_generic_eq (cur : Nat → String) (gc : Nat) (n : String) (qs : List Nat)
    (h1 : pyUpper n ≠ "H") (h2 : pyUpper n ≠ "X") (h3 : pyUpper n ≠ "Y") (h4 : pyUpper n ≠ "Z")
    (h5 : pyUpper n ≠ "CX") (h6 : pyUpper n ≠ "CNOT") (h7 : pyUpper n ≠ "MEASURE")
    (h8 : pyStarts (pyUpper n) "R" = false) (h9 : pyUpper n ≠ "SWAP") :
    mermaidStep cur gc (.generic n qs) =
      ((wireLoop cur (pyUpper n ++ Nat.repr gc) qs).1,
       ("    " ++ (pyUpper n ++ Nat.repr gc) ++ "[" ++ pyUpper n ++ " Gate]")
         :: (wireLoop cur (pyUpper n ++ Nat.repr gc) qs).2) := by
  unfold mermaidStep
  dsimp only [Op.qiskitName, Op.qubits]
  rw [if_neg h1, if_neg (by simp [h2, h3, h4]), if_neg (by simp [h5, h6]), if_neg h7,
    if_neg (by simp [h8]), if_neg h9]

theorem mermaidStep_state (cur : Nat → String) (gc : Nat) (op : Op) (hwf : op.mermaidWf) :
    (mermaidStep cur gc op).1 = updCur cur op.qubits (nodeId gc op) := by
  cases op with
  | h q => rfl
  | x q => rfl
  | y q => rfl
  | z q => rfl
  | cx a b => rfl
  | measure q cb => rfl
  | u a b c q =>
    funext i
    show (wireLoop cur ("U" ++ Nat.repr gc) [q]).1 i = _
    rw [wireLoop_state]
    rfl
  | swap a b => rfl
  | s q =>
    funext i
    show (wireLoop cur ("S" ++ Nat.repr gc) [q]).1 i = _
    rw [wireLoop_state]
    rfl
  | sdg q =>
    funext i
    show (wireLoop cur ("SDG" ++ Nat.repr gc) [q]).1 i = _
    rw [wireLoop_state]
    rfl
  | t q =>
    funext i
    show (wireLoop cur ("T" ++ Nat.repr gc) [q]).1 i = _
    rw [wireLoop_state]
    rfl
  | tdg q =>
    funext i
    show (wireLoop cur ("TDG" ++ Nat.repr gc) [q]).1 i = _
    rw [wireLoop_state]
    rfl
  | barrier qs =>
    funext i
    show (wireLoop cur ("BARRIER" ++ Nat.repr gc) qs).1 i = _
    rw [wireLoop_state]
    rfl
  | rot n a qs =>
    obtain ⟨hn, hnd⟩ := hwf
    rcases hn with h1 | h1 | h1 | h1 | h1 | h1 <;> subst h1 <;>
      (funext i
       first
         | (show (wireLoop cur ("RX" ++ Nat.repr gc) qs).1 i = _; rw [wireLoop_state]; rfl)
         | (show (wireLoop cur ("RY" ++ Nat.repr gc) qs).1 i = _; rw [wireLoop_state]; rfl)
         | (show (wireLoop cur ("RZ" ++ Nat.repr gc) qs).1 i = _; rw [wireLoop_state]; rfl)
         | (show (wireLoop cur ("RXX" ++ Nat.repr gc) qs).1 i = _; rw [wireLoop_state]; rfl)
         | (show (wireLoop cur ("RYY" ++ Nat.repr gc) qs).1 i = _; rw [wireLoop_state]; rfl)
         | (show (wireLoop cur ("RZZ" ++ Nat.repr gc) qs).1 i = _; rw [wireLoop_state]; rfl))
  | generic n qs =>
    obtain ⟨⟨h1, h2, h3, h4, h5, h6, h7, h8, h9⟩, hnd⟩ := hwf
    rw [mermaidStep_generic_eq cur gc n qs h1 h2 h3 h4 h5 h6 h7 h8 h9]
    funext i
    show (wireLoop cur (pyUpper n ++ Nat.repr gc) qs).1 i = _
    rw [wireLoop_state, nodeId_generic gc n qs h5 h6 h7]
    rfl

theorem mermaidStep_edges (cur : Nat → String) (gc : Nat) (op : Op) (hwf : op.mermaidWf) :
    ∀ i ∈ op.qubits,
      ("    " ++ cur i ++ " --> " ++ nodeId gc op) ∈ (mermaidStep cur gc op).2 := by
  cases op with
  | h q =>
    intro i hi
    have hq : i = q := by simpa [Op.qubits] using hi
    subst hq
    exact List.mem_cons_of_mem _ (List.mem_cons_self _ _)
  | x q =>
    intro i hi
    have hq : i = q := by simpa [Op.qubits] using hi
    subst hq
    exact List.mem_cons_of_mem _ (List.mem_cons_self _ _)
  | y q =>
    intro i hi
    have hq : i = q := by simpa [Op.qubits] using hi
    subst hq
    exact List.mem_cons_of_mem _ (List.mem_cons_self _ _)
  | z q =>
    intro i hi
    have hq : i = q := by simpa [Op.qubits] using hi
    subst hq
    exact List.mem_cons_of_mem _ (List.mem_cons_self _ _)
  | cx a b =>
    intro i hi
    rcases (by simpa [Op.qubits] using hi : i = a ∨ i = b) with hq | hq <;> subst hq
    · exact List.mem_cons_of_mem _ (List.mem_cons_self _ _)
    · exact List.mem_cons_of_mem _ (List.mem_cons_of_mem _ (List.mem_cons_self _ _))
  | measure q cb =>
    intro i hi
    have hq : i = q := by simpa [Op.qubits] using hi
    subst hq
    exact List.mem_cons_of_mem _ (List.mem_cons_self _ _)
  | swap a b =>
    intro i hi
    rcases (by simpa [Op.qubits] using hi : i = a ∨ i = b) with hq | hq <;> subst hq
    · exact List.mem_cons_of_mem _ (List.mem_cons_self _ _)
    · exact List.mem_cons_of_mem _ (List.mem_cons_of_mem _ (List.mem_cons_self _ _))
  | u a b c q =>
    intro i hi
    exact List.mem_cons_of_mem _
      (wireLoop_edges ("U" ++ Nat.repr gc) [q] cur (by simp) i (by simpa [Op.qubits] using hi))
  | s q =>
    intro i hi
    exact List.mem_cons_of_mem _
      (wireLoop_edges ("S" ++ Nat.repr gc) [q] cur (by simp) i (by simpa [Op.qubits] using hi))
  | sdg q =>
    intro i hi
    exact List.mem_cons_of_mem _
      (wireLoop_edges ("SDG" ++ Nat.repr gc) [q] cur (by simp) i (by simpa [Op.qubits] using hi))
  | t q =>
    intro i hi
    exact List.mem_cons_of_mem _
      (wireLoop_edges ("T" ++ Nat.repr gc) [q] cur (by simp) i (by simpa [Op.qubits] using hi))
  | tdg q =>
    intro i hi
    exact List.mem_cons_of_mem _
      (wireLoop_edges ("TDG" ++ Nat.repr gc) [q] cur (by simp) i (by simpa [Op.qubits] using hi))
  | barrier qs =>
    intro i hi
    exact List.mem_cons_of_mem _
      (wireLoop_edges ("BARRIER" ++ Nat.repr gc) qs cur hwf i (by simpa [Op.qubits] using hi))
  | rot n a qs =>
    obtain ⟨hn, hnd⟩ := hwf
    intro i hi
    rcases hn with h1 | h1 | h1 | h1 | h1 | h1 <;> subst h1 <;>
      exact List.mem_cons_of_mem _
        (wireLoop_edges _ qs cur hnd i (by simpa [Op.qubits] using hi))
  | generic n qs =>
    obtain ⟨⟨h1, h2, h3, h4, h5, h6, h7, h8, h9⟩, hnd⟩ := hwf
    intro i hi
    rw [mermaidStep_generic_eq cur gc n qs h1 h2 h3 h4 h5 h6 h7 h8 h9,
      nodeId_generic gc n qs h5 h6 h7]
    exact List.mem_cons_of_mem _
      (wireLoop_edges _ qs cur hnd i (by simpa [Op.qubits] using hi))

theorem lastTouchingFrom_nil (cur : Nat → String) (gc : Nat) (i : Nat) :
    lastTouchingFrom cur gc [] i = cur i := rfl

theorem lastTouchingFrom_cons (cur : Nat → String) (gc : Nat) (op : Op) (rest : List Op)
    (i : Nat) :
    lastTouchingFrom cur gc (op :: rest) i =
      lastTouchingFrom (updCur cur op.qubits (nodeId (gc + 1) op)) (gc + 1) rest i := by
  unfold lastTouchingFrom
  rw [show List.enumFrom (gc + 1) (op :: rest) = (gc + 1, op) :: List.enumFrom (gc + 2) rest
      from rfl]
  rw [List.reverse_cons, List.find?_append]
  cases hfind : (List.enumFrom (gc + 2) rest).reverse.find? (fun p => p.2.qubits.contains i) with
  | some p => simp
  | none =>
    simp only [Option.none_or]
    by_cases ht : i ∈ op.qubits
    · simp [List.find?, ht, updCur]
    · simp [List.find?, ht, updCur]

theorem mermaidSteps_state :
    ∀ ops (cur : Nat → String) (gc : Nat), (∀ op ∈ ops, op.mermaidWf) →
      ∀ i, (mermaidSteps cur gc ops).1 i = lastTouchingFrom cur gc ops i := by
  intro ops
  induction ops with
  | nil => intro cur gc _ i; rfl
  | cons op rest ih =>
    intro cur gc hwf i
    show (mermaidSteps (mermaidStep cur (gc + 1) op).1 (gc + 1) rest).1 i = _
    rw [mermaidStep_state cur (gc + 1) op (hwf op (List.mem_cons_self _ _))]
    rw [ih (updCur cur op.qubits (nodeId (gc + 1) op)) (gc + 1)
      (fun o ho => hwf o (List.mem_cons_of_mem _ ho)) i]
    rw [lastTouchingFrom_cons]

theorem mermaidSteps_edges :
    ∀ ops (cur : Nat → String) (gc : Nat), (∀ op ∈ ops, op.mermaidWf) →
      ∀ j op, ops.get? j = some op →
        ∀ i ∈ op.qubits,
          ("    " ++ lastTouchingFrom cur gc (ops.take j) i ++ " --> "
            ++ nodeId (gc + j + 1) op) ∈ (mermaidSteps cur gc ops).2 := by
  intro ops
  induction ops with
  | nil => intro cur gc _ j op hj; cases hj
  | cons op0 rest ih =>
    intro cur gc hwf j op hj i hi
    cases j with
    | zero =>
      have hop : op0 = op := by simpa using hj
      subst hop
      exact List.mem_append_left _
        (mermaidStep_edges cur (gc + 1) op0 (hwf _ (List.mem_cons_self _ _)) i hi)
    | succ j' =>
      rw [List.get?_cons_succ] at hj
      have hmem := ih (updCur cur op0.qubits (nodeId (gc + 1) op0)) (gc + 1)
        (fun o ho => hwf o (List.mem_cons_of_mem _ ho)) j' op hj i hi
      have hidx : gc + (j' + 1) + 1 = gc + 1 + j' + 1 := by omega
      rw [List.take_succ_cons, lastTouchingFrom_cons, hidx]
      show _ ∈ (mermaidStep cur (gc + 1) op0).2 ++
        (mermaidSteps (mermaidStep cur (gc + 1) op0).1 (gc + 1) rest).2
      rw [mermaidStep_state cur (gc + 1) op0 (hwf _ (List.mem_cons_self _ _))]
      exact List.mem_append_right _ hmem

theorem mem_mermaidLines_steps (c : Circuit) (l : String)
    (h : l ∈ (mermaidSteps qStart 0 c.ops).2) : l ∈ mermaidLines c := by
  unfold mermaidLines
  dsimp only
  simp only [List.append_assoc, List.mem_append]
  exact Or.inr (Or.inr (Or.inr (Or.inl h)))

theorem mem_mermaidLines_finals (c : Circuit) (i : Nat) (hi : i < c.numQubits) :
    ("    Q" ++ Nat.repr i ++ "_final[Q" ++ Nat.repr i ++ " Final]") ∈ mermaidLines c ∧
    ("    " ++ (mermaidSteps qStart 0 c.ops).1 i ++ " --> Q" ++ Nat.repr i ++ "_final")
      ∈ mermaidLines c := by
  unfold mermaidLines
  dsimp only
  simp only [List.append_assoc, List.mem_append]
  constructor
  · refine Or.inr (Or.inr (Or.inr (Or.inr (Or.inl ?_))))
    rw [List.mem_flatten]
    exact ⟨_, List.mem_map_of_mem _ (List.mem_range.mpr hi), List.mem_cons_self _ _⟩
  · refine Or.inr (Or.inr (Or.inr (Or.inr (Or.inl ?_))))
    rw [List.mem_flatten]
    exact ⟨_, List.mem_map_of_mem _ (List.mem_range.mpr hi),
      List.mem_cons_of_mem _ (List.mem_cons_self _ _)⟩

/-- C8 amended: `visualize_circuit_mermaid` walks the instruction
sequence in application order maintaining a most-recently-emitted-node
reference per QUBIT wire only: each instruction's node gets an edge from
the prior node of every qubit wire it touches, those wires' references
move to the new node, and at the end one terminal node per qubit is
emitted, connected from that qubit's last touched node.  Classical-bit
wires are not tracked (see the counterexample). -/
theorem c8_mermaid_qubit_chaining (c : Circuit) (hwf : ∀ op ∈ c.ops, op.mermaidWf) :
    (∀ j op, c.ops.get? j = some op → ∀ i ∈ op.qubits,
      ("    " ++ lastTouchingFrom qStart 0 (c.ops.take j) i ++ " --> " ++ nodeId (j + 1) op)
        ∈ mermaidLines c) ∧
    (∀ i, i < c.numQubits →
      ("    Q" ++ Nat.repr i ++ "_final[Q" ++ Nat.repr i ++ " Final]") ∈ mermaidLines c ∧
      ("    " ++ lastTouchingFrom qStart 0 c.ops i ++ " --> Q" ++ Nat.repr i ++ "_final")
        ∈ mermaidLines c) := by
  constructor
  · intro j op hj i hi
    have h := mermaidSteps_edges c.ops qStart 0 hwf j op hj i hi
    rw [Nat.zero_add] at h
    exact mem_mermaidLines_steps c _ h
  · intro i hi
    have h := mem_mermaidLines_finals c i hi
    rwa [mermaidSteps_state c.ops qStart 0 hwf i] at h

/-- C8 counterexample: on a 1-qubit, 1-classical-bit circuit holding one
`measure 0 → c0`, the emitter produces the classical start node
`C0_start` but no edge at all out of it — in particular not the edge
from the classical wire's prior node into the measurement node `M1` that
the claimed per-classical-wire chaining would require (the measurement
instead points at a fresh `C0_end1` node). -/
theorem c8_counterexample :
    "    C0_start[0 C0]" ∈ mermaidLines ⟨1, 1, [.measure 0 0]⟩ ∧
    "    C0_start --> M1" ∉ mermaidLines ⟨1, 1, [.measure 0 0]⟩ ∧
    ∀ l ∈ mermaidLines ⟨1, 1, [.measure 0 0]⟩,
      l.data.take ("    C0_start -->".data.length) ≠ "    C0_start -->".data := by
  refine ⟨by decide, by decide, by decide⟩

/-- Witness for C8's amended statement on the circuit `[h 0, cx 0 1]`. -/
theorem c8_mermaid_qubit_chaining_witness :
    (∀ op ∈ (⟨2, 0, [.h 0, .cx 0 1]⟩ : Circuit).ops, op.mermaidWf) ∧
    ((∀ j op, (⟨2, 0, [.h 0, .cx 0 1]⟩ : Circuit).ops.get? j = some op → ∀ i ∈ op.qubits,
      ("    " ++ lastTouchingFrom qStart 0 ((⟨2, 0, [.h 0, .cx 0 1]⟩ : Circuit).ops.take j) i
        ++ " --> " ++ nodeId (j + 1) op) ∈ mermaidLines ⟨2, 0, [.h 0, .cx 0 1]⟩) ∧
     (∀ i, i < (⟨2, 0, [.h 0, .cx 0 1]⟩ : Circuit).numQubits →
      ("    Q" ++ Nat.repr i ++ "_final[Q" ++ Nat.repr i ++ " Final]")
        ∈ mermaidLines ⟨2, 0, [.h 0, .cx 0 1]⟩ ∧
      ("    " ++ lastTouchingFrom qStart 0 (⟨2, 0, [.h 0, .cx 0 1]⟩ : Circuit).ops i
        ++ " --> Q" ++ Nat.repr i ++ "_final") ∈ mermaidLines ⟨2, 0, [.h 0, .cx 0 1]⟩)) :=
  have hwf : ∀ op ∈ (⟨2, 0, [.h 0, .cx 0 1]⟩ : Circuit).ops, op.mermaidWf := by
    intro op hop
    fin_cases hop <;> exact trivial
  ⟨hwf, c8_mermaid_qubit_chaining ⟨2, 0, [.h 0, .cx 0 1]⟩ hwf⟩
